import Mathlib

/-!
Verification of the RAG QA logs/corpus maintenance scripts.

The repository's scripts read five CSV tables (documents, chunks, runs,
scenarios, retrieval events) into pandas dataframes and transform them.
This file gives a shallow embedding of the dataframe operations the scripts
use and proves the spec's claims about them.

A dataframe is modelled as a column-name list plus rows; a row is an
association list from column name to an optional string cell (`none`
models a missing value / NaN, matching `pandas.read_csv` representing
missing CSV fields as NaN).  Fallible script steps (KeyError on a missing
column, raising checks, FileNotFoundError) are modelled with `Except`.
-/

deriving instance DecidableEq for Except

namespace RagQaLogs

/-- A cell of a CSV-backed dataframe: `none` models a missing value (NaN). -/
abbrev Cell := Option String

/-- A dataframe row: association list from column name to cell value. -/
abbrev Row := List (String × Cell)

/-- An in-memory dataframe, as produced by `pandas.read_csv`. -/
structure DF where
  cols : List String
  rows : List Row
deriving Repr, DecidableEq

/-- Value of column `c` in row `r` (`none` when the entry is absent or null). -/
def rowCell (r : Row) (c : String) : Cell :=
  match r.find? (fun p => p.1 == c) with
  | some p => p.2
  | none => none

/-- Column access `df[c]` as a total function: the list of cells, empty when
the column is absent (callers that would raise use `DF.getCol`). -/
def DF.col (df : DF) (c : String) : List Cell :=
  if c ∈ df.cols then df.rows.map (fun r => rowCell r c) else []

/-- Column access `df[c]` raising `KeyError` when the column is absent. -/
def DF.getCol (df : DF) (c : String) : Except String (List Cell) :=
  if c ∈ df.cols then .ok (df.rows.map (fun r => rowCell r c))
  else .error ("KeyError: " ++ c)

/-- Boolean-mask row filtering `df[mask]`. -/
def DF.filterRows (df : DF) (p : Row → Bool) : DF :=
  ⟨df.cols, df.rows.filter p⟩

/-- `df.iloc[0:0]`: same columns, no rows. -/
def DF.emptyLike (df : DF) : DF := ⟨df.cols, []⟩

/-- `pandas` `astype(str)`: a NaN cell stringifies to `"nan"`. -/
def astypeStr : Cell → String
  | none => "nan"
  | some s => s

/-- Distinct non-null values of a column:
`set(df[c].dropna().astype(str).unique())` as a list. -/
def DF.nonNull (df : DF) (c : String) : List String :=
  ((df.col c).filterMap id).dedup

/-- The five tables read by every script (documents, chunks, runs,
scenarios, events), in the field order used throughout `make_sample.py`. -/
structure Tables where
  documents : DF
  chunks : DF
  runs : DF
  scenarios : DF
  events : DF
deriving Repr, DecidableEq

/-! ## Sampler (`scripts/make_sample.py`) -/

/-- One step of a linear congruential generator.  Models the seeded PRNG
behind `DataFrame.sample(random_state=seed)`; the exact pandas bit stream is
abstracted, what matters for the claims is that the draw is a pure function
of the seed. -/
def lcg (s : Nat) : Nat :=
  (6364136223846793005 * s + 1442695040888963407) % (2 ^ 64)

/-- Modelled from the library contract of
`DataFrame.sample(n=n, random_state=seed)` (the pandas implementation is not
part of this repository): draw `n` rows without replacement, deterministically
in `seed`, by repeatedly removing a PRNG-chosen row. -/
def sampleAux {α : Type} : Nat → List α → Nat → List α
  | 0, _, _ => []
  | _ + 1, [], _ => []
  | n + 1, x :: xs, st =>
      let st' := lcg st
      (x :: xs).get ⟨st' % (x :: xs).length, Nat.mod_lt _ (by simp)⟩ ::
        sampleAux n ((x :: xs).eraseIdx (st' % (x :: xs).length)) st'

/-- `make_sample.py` `main` after argument parsing: sample
`n = min(n_events, len(events))` event rows, collect the referenced
run/chunk/scenario identifiers, filter the four dimension tables to the
collected identifier sets, and return the five output tables
(documents, chunks, runs, scenarios, events).  Column accesses that pandas
would raise `KeyError` on are modelled with `Except`. -/
def makeSample (t : Tables) (nEvents seed : Nat) : Except String Tables := do
  let n := min nEvents t.events.rows.length
  let eventsS : DF := ⟨t.events.cols, sampleAux n t.events.rows seed⟩
  let runIdCells ← eventsS.getCol ("run_id")
  let runIds := (runIdCells.filterMap id).dedup
  let chunkCells ← eventsS.getCol ("chunk_id")
  let chunkIds := (chunkCells.filterMap id).dedup
  let scenIds0 := ((eventsS.col ("scenario_id")).filterMap id).dedup
  let _ ← t.runs.getCol ("run_id")
  let runsS := t.runs.filterRows (fun r => decide (astypeStr (rowCell r ("run_id")) ∈ runIds))
  let scenIds := if ("scenario_id") ∈ runsS.cols
    then scenIds0 ++ ((runsS.col ("scenario_id")).filterMap id).dedup
    else scenIds0
  let _ ← t.chunks.getCol ("chunk_id")
  let chunksS := t.chunks.filterRows (fun r => decide (astypeStr (rowCell r ("chunk_id")) ∈ chunkIds))
  let docIds := if ("doc_id") ∈ chunksS.cols
    then ((chunksS.col ("doc_id")).filterMap id).dedup
    else []
  let docsS := if ("doc_id") ∈ t.documents.cols
    then t.documents.filterRows (fun r => decide (astypeStr (rowCell r ("doc_id")) ∈ docIds))
    else t.documents.emptyLike
  let _ ← t.scenarios.getCol ("scenario_id")
  let scenariosS := t.scenarios.filterRows
    (fun r => decide (astypeStr (rowCell r ("scenario_id")) ∈ scenIds))
  .ok ⟨docsS, chunksS, runsS, scenariosS, eventsS⟩

/-! ## Sampler lemmas -/

theorem sampleAux_length {α : Type} (n : Nat) (l : List α) (st : Nat) :
    (sampleAux n l st).length = min n l.length := by
  induction n generalizing l st with
  | zero => simp [sampleAux]
  | succ n ih =>
      cases l with
      | nil => simp [sampleAux]
      | cons x xs =>
          have hlt : lcg st % (xs.length + 1) < xs.length + 1 := Nat.mod_lt _ (Nat.succ_pos _)
          rw [sampleAux]
          simp only [List.length_cons, ih, List.length_eraseIdx, hlt, if_pos]
          omega

theorem get_cons_eraseIdx_perm {α : Type} (l : List α) (i : Nat) (h : i < l.length) :
    (l.get ⟨i, h⟩ :: l.eraseIdx i).Perm l := by
  have h1 : l.eraseIdx i = l.take i ++ l.drop (i + 1) :=
    List.eraseIdx_eq_take_drop_succ l i
  have h2 : l.get ⟨i, h⟩ :: l.drop (i + 1) = l.drop i := List.get_cons_drop l ⟨i, h⟩
  rw [h1]
  refine List.Perm.trans List.perm_middle.symm ?_
  rw [h2, List.take_append_drop]

theorem sampleAux_subperm {α : Type} (n : Nat) (l : List α) (st : Nat) :
    (sampleAux n l st).Subperm l := by
  induction n generalizing l st with
  | zero => simp [sampleAux]
  | succ n ih =>
      cases l with
      | nil => simp [sampleAux]
      | cons x xs =>
          rw [sampleAux]
          have hlt : lcg st % (x :: xs).length < (x :: xs).length :=
            Nat.mod_lt _ (by simp)
          have hperm := get_cons_eraseIdx_perm (x :: xs) (lcg st % (x :: xs).length) hlt
          have hsub := (List.subperm_cons
            ((x :: xs).get ⟨lcg st % (x :: xs).length, hlt⟩)).mpr
            (ih ((x :: xs).eraseIdx (lcg st % (x :: xs).length)) (lcg st))
          exact hsub.trans hperm.subperm

theorem sampleAux_mem {α : Type} {n : Nat} {l : List α} {st : Nat} {x : α}
    (h : x ∈ sampleAux n l st) : x ∈ l :=
  (sampleAux_subperm n l st).subset h

/-- Membership in a column's distinct non-null value set. -/
theorem mem_nonNull {df : DF} {c v : String} :
    v ∈ df.nonNull c ↔ c ∈ df.cols ∧ ∃ r ∈ df.rows, rowCell r c = some v := by
  unfold DF.nonNull DF.col
  by_cases hc : c ∈ df.cols
  · simp [hc, List.mem_dedup, List.mem_filterMap, List.mem_map]
  · simp [hc]

/-- Membership in the distinct non-null values of a filtered dataframe. -/
theorem mem_nonNull_filterRows {df : DF} {p : Row → Bool} {c v : String} :
    v ∈ (df.filterRows p).nonNull c ↔
      c ∈ df.cols ∧ ∃ r, r ∈ df.rows ∧ p r = true ∧ rowCell r c = some v := by
  rw [mem_nonNull]
  simp only [DF.filterRows, List.mem_filter]
  constructor
  · rintro ⟨hc, r, ⟨hr, hp⟩, hcell⟩
    exact ⟨hc, r, hr, hp, hcell⟩
  · rintro ⟨hc, r, hr, hp, hcell⟩
    exact ⟨hc, r, ⟨hr, hp⟩, hcell⟩

/-! ## Concrete witness data: a tiny consistent five-table dataset. -/

def wDocuments : DF := ⟨["doc_id"], [[(("doc_id" : String), some ("d1"))]]⟩

def wChunks : DF :=
  ⟨["chunk_id", "doc_id"], [[(("chunk_id" : String), some ("c1")), (("doc_id" : String), some ("d1"))]]⟩

def wRuns : DF :=
  ⟨["run_id", "scenario_id", "example_id", "query_id"],
   [[(("run_id" : String), some ("r1")), (("scenario_id" : String), some ("s1")),
     (("example_id" : String), some ("e1")), (("query_id" : String), some ("q1"))]]⟩

def wScenarios : DF := ⟨["scenario_id"], [[(("scenario_id" : String), some ("s1"))]]⟩

def wEvents : DF :=
  ⟨["run_id", "chunk_id", "rank", "is_relevant"],
   [[(("run_id" : String), some ("r1")), (("chunk_id" : String), some ("c1")),
     (("rank" : String), some ("1")), (("is_relevant" : String), some ("1"))],
    [(("run_id" : String), some ("r1")), (("chunk_id" : String), some ("c1")),
     (("rank" : String), some ("2")), (("is_relevant" : String), some ("0"))]]⟩

def wTables : Tables := ⟨wDocuments, wChunks, wRuns, wScenarios, wEvents⟩

/-! ## Claim C9 -/

/-- C9: the sampler is deterministic in (n, seed) over a fixed input (re-running
`makeSample` with the same arguments yields the same result), the sampled event
set has exactly `min n (number of available event rows)` rows — all of them when
`n` exceeds the available rows — and is drawn without replacement (it is a
sub-permutation of the input event rows). -/
theorem sampler_determinism_and_size (t : Tables) (nEvents seed : Nat) (out : Tables)
    (h : makeSample t nEvents seed = .ok out) :
    makeSample t nEvents seed = makeSample t nEvents seed ∧
    out.events.rows = sampleAux (min nEvents t.events.rows.length) t.events.rows seed ∧
    out.events.rows.length = min nEvents t.events.rows.length ∧
    out.events.rows.Subperm t.events.rows ∧
    (t.events.rows.length ≤ nEvents → out.events.rows.Perm t.events.rows) := by
  have hev : out.events.rows = sampleAux (min nEvents t.events.rows.length) t.events.rows seed := by
    unfold makeSample at h
    simp only [bind, Except.bind, DF.getCol] at h
    by_cases h1 : ("run_id") ∈ t.events.cols
    case neg => rw [if_neg h1] at h; simp at h
    rw [if_pos h1] at h
    by_cases h2 : ("chunk_id") ∈ t.events.cols
    case neg => rw [if_neg h2] at h; simp at h
    rw [if_pos h2] at h
    by_cases h3 : ("run_id") ∈ t.runs.cols
    case neg => rw [if_neg h3] at h; simp at h
    rw [if_pos h3] at h
    by_cases h4 : ("chunk_id") ∈ t.chunks.cols
    case neg => rw [if_neg h4] at h; simp at h
    rw [if_pos h4] at h
    by_cases h5 : ("scenario_id") ∈ t.scenarios.cols
    case neg => rw [if_neg h5] at h; simp at h
    rw [if_pos h5] at h
    simp only [Except.ok.injEq] at h
    rw [← h]
  refine ⟨rfl, hev, ?_, ?_, ?_⟩
  · rw [hev, sampleAux_length]; omega
  · rw [hev]; exact sampleAux_subperm _ _ _
  · intro hle
    rw [hev]
    refine (sampleAux_subperm _ _ _).perm_of_length_le ?_
    rw [sampleAux_length]
    omega

/-! ## Claim C1 -/

/-- C1: sampler referential closure — for an input dataset whose source tables
are referentially complete and carry the expected key columns, and for any
sample size and seed, every foreign-key value present in an output table
(events.run_id, events.chunk_id, events.scenario_id, chunks.doc_id,
runs.scenario_id) also appears as a primary-key value in the corresponding
output table (runs, chunks, scenarios, documents). -/
theorem sampler_referential_closure (t : Tables) (nEvents seed : Nat)
    (hevRun : ("run_id") ∈ t.events.cols) (hevChunk : ("chunk_id") ∈ t.events.cols)
    (hrunsKey : ("run_id") ∈ t.runs.cols) (hchunksKey : ("chunk_id") ∈ t.chunks.cols)
    (hdocsKey : ("doc_id") ∈ t.documents.cols) (hscenKey : ("scenario_id") ∈ t.scenarios.cols)
    (hfkRun : ∀ v ∈ t.events.nonNull ("run_id"), v ∈ t.runs.nonNull ("run_id"))
    (hfkChunk : ∀ v ∈ t.events.nonNull ("chunk_id"), v ∈ t.chunks.nonNull ("chunk_id"))
    (hfkEvScen : ∀ v ∈ t.events.nonNull ("scenario_id"), v ∈ t.scenarios.nonNull ("scenario_id"))
    (hfkDoc : ∀ v ∈ t.chunks.nonNull ("doc_id"), v ∈ t.documents.nonNull ("doc_id"))
    (hfkRunScen : ∀ v ∈ t.runs.nonNull ("scenario_id"), v ∈ t.scenarios.nonNull ("scenario_id")) :
    ∃ out, makeSample t nEvents seed = .ok out ∧
      (∀ v ∈ out.events.nonNull ("run_id"), v ∈ out.runs.nonNull ("run_id")) ∧
      (∀ v ∈ out.events.nonNull ("chunk_id"), v ∈ out.chunks.nonNull ("chunk_id")) ∧
      (∀ v ∈ out.events.nonNull ("scenario_id"), v ∈ out.scenarios.nonNull ("scenario_id")) ∧
      (∀ v ∈ out.chunks.nonNull ("doc_id"), v ∈ out.documents.nonNull ("doc_id")) ∧
      (∀ v ∈ out.runs.nonNull ("scenario_id"), v ∈ out.scenarios.nonNull ("scenario_id")) := by
  unfold makeSample
  simp only [bind, Except.bind, DF.getCol]
  rw [if_pos hevRun, if_pos hevChunk, if_pos hrunsKey, if_pos hchunksKey, if_pos hscenKey]
  refine ⟨_, rfl, ?_, ?_, ?_, ?_, ?_⟩
  · intro v hv
    rw [mem_nonNull] at hv
    obtain ⟨hcol, r, hr, hcell⟩ := hv
    have hvev : v ∈ t.events.nonNull ("run_id") :=
      mem_nonNull.mpr ⟨hevRun, r, sampleAux_mem hr, hcell⟩
    obtain ⟨_, pr, hpr, hpcell⟩ := mem_nonNull.mp (hfkRun v hvev)
    refine mem_nonNull_filterRows.mpr ⟨hrunsKey, pr, hpr, ?_, hpcell⟩
    rw [hpcell]
    simp only [astypeStr, decide_eq_true_eq, List.mem_dedup, List.mem_filterMap,
      List.mem_map, id_eq]
    exact ⟨some v, ⟨r, hr, hcell⟩, rfl⟩
  · intro v hv
    rw [mem_nonNull] at hv
    obtain ⟨hcol, r, hr, hcell⟩ := hv
    have hvev : v ∈ t.events.nonNull ("chunk_id") :=
      mem_nonNull.mpr ⟨hevChunk, r, sampleAux_mem hr, hcell⟩
    obtain ⟨_, pc, hpc, hpccell⟩ := mem_nonNull.mp (hfkChunk v hvev)
    refine mem_nonNull_filterRows.mpr ⟨hchunksKey, pc, hpc, ?_, hpccell⟩
    rw [hpccell]
    simp only [astypeStr, decide_eq_true_eq, List.mem_dedup, List.mem_filterMap,
      List.mem_map, id_eq]
    exact ⟨some v, ⟨r, hr, hcell⟩, rfl⟩
  · intro v hv
    have hv' := hv
    rw [mem_nonNull] at hv'
    obtain ⟨hcol, r, hr, hcell⟩ := hv'
    have hvev : v ∈ t.events.nonNull ("scenario_id") :=
      mem_nonNull.mpr ⟨hcol, r, sampleAux_mem hr, hcell⟩
    obtain ⟨_, ps, hps, hpscell⟩ := mem_nonNull.mp (hfkEvScen v hvev)
    refine mem_nonNull_filterRows.mpr ⟨hscenKey, ps, hps, ?_, hpscell⟩
    rw [hpscell]
    simp only [astypeStr, decide_eq_true_eq]
    split
    · exact List.mem_append_left _ hv
    · exact hv
  · intro v hv
    have hv' := hv
    rw [mem_nonNull_filterRows] at hv'
    obtain ⟨hcolC, rc, hrc, hprc, hcell⟩ := hv'
    have hvchunks : v ∈ t.chunks.nonNull ("doc_id") :=
      mem_nonNull.mpr ⟨hcolC, rc, hrc, hcell⟩
    obtain ⟨_, pd, hpd, hpdcell⟩ := mem_nonNull.mp (hfkDoc v hvchunks)
    rw [if_pos hdocsKey]
    refine mem_nonNull_filterRows.mpr ⟨hdocsKey, pd, hpd, ?_, hpdcell⟩
    rw [hpdcell]
    simp only [astypeStr, decide_eq_true_eq]
    simp only [DF.filterRows]
    rw [if_pos hcolC]
    exact hv
  · intro v hv
    have hv' := hv
    rw [mem_nonNull_filterRows] at hv'
    obtain ⟨hcolR, rr, hrr, hprr, hcell⟩ := hv'
    have hvruns : v ∈ t.runs.nonNull ("scenario_id") :=
      mem_nonNull.mpr ⟨hcolR, rr, hrr, hcell⟩
    obtain ⟨_, ps, hps, hpscell⟩ := mem_nonNull.mp (hfkRunScen v hvruns)
    refine mem_nonNull_filterRows.mpr ⟨hscenKey, ps, hps, ?_, hpscell⟩
    rw [hpscell]
    simp only [astypeStr, decide_eq_true_eq]
    simp only [DF.filterRows]
    rw [if_pos hcolR]
    exact List.mem_append_right _ hv

/-- Witness for C1 at a concrete dataset, n = 1, seed = 7. -/
theorem sampler_referential_closure_witness :
    ∃ out, makeSample wTables 1 7 = .ok out ∧
      (∀ v ∈ out.events.nonNull ("run_id"), v ∈ out.runs.nonNull ("run_id")) ∧
      (∀ v ∈ out.events.nonNull ("chunk_id"), v ∈ out.chunks.nonNull ("chunk_id")) ∧
      (∀ v ∈ out.events.nonNull ("scenario_id"), v ∈ out.scenarios.nonNull ("scenario_id")) ∧
      (∀ v ∈ out.chunks.nonNull ("doc_id"), v ∈ out.documents.nonNull ("doc_id")) ∧
      (∀ v ∈ out.runs.nonNull ("scenario_id"), v ∈ out.scenarios.nonNull ("scenario_id")) :=
  sampler_referential_closure wTables 1 7 (by decide) (by decide) (by decide) (by decide)
    (by decide) (by decide) (by decide) (by decide) (by decide) (by decide) (by decide)

/-- Witness for C9 at a concrete dataset, n = 1, seed = 42. -/
theorem sampler_determinism_and_size_witness :
    ∃ out, makeSample wTables 1 42 = .ok out ∧ out.events.rows.length = 1 := by
  cases hres : makeSample wTables 1 42 with
  | error e =>
      have hok : (makeSample wTables 1 42).isOk = true := by decide
      rw [hres] at hok
      simp [Except.isOk, Except.toBool] at hok
  | ok out =>
      refine ⟨out, rfl, ?_⟩
      have hmain := sampler_determinism_and_size wTables 1 42 out hres
      rw [hmain.2.2.1]
      decide

/-! ## Numeric coercion (pandas `to_numeric(errors="coerce")`) -/

/-- Parse a digit run into a natural number; `none` on a non-digit. -/
def parseDigitsAux : List Char → Nat → Option Nat
  | [], acc => some acc
  | c :: cs, acc =>
      if c.isDigit then parseDigitsAux cs (acc * 10 + (c.toNat - 48)) else none

/-- Parse an unsigned decimal string (digits with an optional single dot) into
a numerator/denominator pair. -/
def parseUnsigned (cs : List Char) : Option (Nat × Nat) :=
  let ip := cs.takeWhile (fun c => decide (c ≠ '.'))
  let rest := cs.dropWhile (fun c => decide (c ≠ '.'))
  match rest with
  | [] =>
      if ip.isEmpty then none
      else (parseDigitsAux ip 0).map (fun n => (n, 1))
  | _ :: frac =>
      if frac.contains '.' then none
      else if ip.isEmpty && frac.isEmpty then none
      else
        match parseDigitsAux ip 0, parseDigitsAux frac 0 with
        | some n, some f => some (n * 10 ^ frac.length + f, 10 ^ frac.length)
        | _, _ => none

/-- Best-effort numeric coercion of one string, modelling
`pd.to_numeric(errors="coerce")` on the decimal forms occurring in the data
(optional sign, digits, optional fractional part); anything else — including
boolean words such as `"True"` or `"yes"`, and non-finite spellings — coerces
to NaN (`none`). -/
def parseRatStr (s : String) : Option Rat :=
  match s.toList with
  | '-' :: t => (parseUnsigned t).map (fun p => mkRat (-(p.1 : Int)) p.2)
  | '+' :: t => (parseUnsigned t).map (fun p => mkRat (p.1 : Int) p.2)
  | t => (parseUnsigned t).map (fun p => mkRat (p.1 : Int) p.2)

/-- Numeric coercion of a cell: NaN stays NaN. -/
def toNumeric (c : Cell) : Option Rat := c.bind parseRatStr

/-! ## Flat-table joiner (`scripts/build_flat_table.py`) -/

/-- `pd.cut` over bins `[-0.1, 250, 500, 1000, 2000, 5000, inf]` with the
latency labels: right-closed intervals, values at or below the lowest edge
(or missing) get no label. -/
def latencyBucket (x : Option Rat) : Option String :=
  match x with
  | none => none
  | some v =>
      if v ≤ mkRat (-1) 10 then none
      else if v ≤ 250 then some ("<=250")
      else if v ≤ 500 then some ("251-500")
      else if v ≤ 1000 then some ("501-1000")
      else if v ≤ 2000 then some ("1001-2000")
      else if v ≤ 5000 then some ("2001-5000")
      else some (">5000")

/-- `pd.cut` over bins `[-0.000001, 0.001, 0.01, 0.05, 0.1, 0.25, inf]` with
the cost labels. -/
def costBucket (x : Option Rat) : Option String :=
  match x with
  | none => none
  | some v =>
      if v ≤ mkRat (-1) 1000000 then none
      else if v ≤ mkRat 1 1000 then some ("<=0.001")
      else if v ≤ mkRat 1 100 then some ("0.001-0.01")
      else if v ≤ mkRat 1 20 then some ("0.01-0.05")
      else if v ≤ mkRat 1 10 then some ("0.05-0.1")
      else if v ≤ mkRat 1 4 then some ("0.1-0.25")
      else some (">0.25")

/-- Output columns of a pandas many-to-one merge with `suffixes=("", sfx)`:
the left columns keep their names, the join key appears once, and a right
column clashing with a left column gets the suffix. -/
def mergedCols (lc rc : List String) (key sfx : String) : List String :=
  lc ++ (rc.filter (fun c => decide (c ≠ key))).map (fun c => if c ∈ lc then c ++ sfx else c)

/-- The non-key cells of a matched right row, renamed like `mergedCols`. -/
def rightRowRenamed (lc : List String) (key sfx : String) (rr : Row) : Row :=
  (rr.filter (fun p => decide (p.1 ≠ key))).map
    (fun p => (if p.1 ∈ lc then p.1 ++ sfx else p.1, p.2))

/-- The all-NaN right cells attached to an unmatched left row. -/
def rightMissing (lc rc : List String) (key sfx : String) : Row :=
  ((rc.filter (fun c => decide (c ≠ key))).map (fun c => if c ∈ lc then c ++ sfx else c)).map
    (fun c => (c, (none : Cell)))

/-- `left.merge(right, on=key, how="left", suffixes=("", sfx), validate="m:1")`:
raises `KeyError` when the key column is absent on either side, raises
`MergeError` when the right key values are not unique, and otherwise attaches
to each left row the cells of its unique matching right row (NaN-filled when
unmatched). -/
def mergeM1 (l r : DF) (key sfx : String) : Except String DF :=
  if key ∈ l.cols ∧ key ∈ r.cols then
    if (r.rows.map (fun rr => rowCell rr key)).Nodup then
      .ok ⟨mergedCols l.cols r.cols key sfx,
           l.rows.map (fun lr =>
             match r.rows.find? (fun rr => rowCell rr key == rowCell lr key) with
             | some rr => lr ++ rightRowRenamed l.cols key sfx rr
             | none => lr ++ rightMissing l.cols r.cols key sfx)⟩
    else .error ("MergeError: merge keys are not unique in right dataset; not a m:1 merge on " ++ key)
  else .error ("KeyError: " ++ key)

/-- Append a derived column (`df[name] = vals`). -/
def DF.addCol (df : DF) (name : String) (vals : List Cell) : DF :=
  ⟨df.cols ++ [name], (df.rows.zip vals).map (fun p => p.1 ++ [(name, p.2)])⟩

/-- One `if col in df.columns: df[dst] = pd.cut(df[src], ...)` step. -/
def addBucketCol (df : DF) (srcCol dstCol : String) (f : Option Rat → Option String) : DF :=
  if srcCol ∈ df.cols then df.addCol dstCol ((df.col srcCol).map (fun c => f (toNumeric c)))
  else df

/-- `build_flat_table.py` `main` after loading: the chain of validated
many-to-one left joins (events → runs → chunks → documents → scenarios, the
last two only when the key column exists on both sides), then the two derived
bucket columns. -/
def buildFlat (t : Tables) : Except String DF := do
  let df1 ← mergeM1 t.events t.runs ("run_id") ("_run")
  let df2 ← mergeM1 df1 t.chunks ("chunk_id") ("_chunk")
  let df3 ← if ("doc_id") ∈ df2.cols ∧ ("doc_id") ∈ t.documents.cols
    then mergeM1 df2 t.documents ("doc_id") ("_doc") else pure df2
  let df4 ← if ("scenario_id") ∈ df3.cols ∧ ("scenario_id") ∈ t.scenarios.cols
    then mergeM1 df3 t.scenarios ("scenario_id") ("_scenario") else pure df3
  let df5 := addBucketCol df4 ("total_latency_ms") ("latency_bucket") latencyBucket
  let df6 := addBucketCol df5 ("total_cost_usd") ("cost_bucket") costBucket
  .ok df6

/-- Column list after the events→runs merge. -/
def cols1 (t : Tables) : List String :=
  mergedCols t.events.cols t.runs.cols ("run_id") ("_run")

/-- Column list after the chunks merge. -/
def cols2 (t : Tables) : List String :=
  mergedCols (cols1 t) t.chunks.cols ("chunk_id") ("_chunk")

/-- Column list after the (conditional) documents merge. -/
def cols3 (t : Tables) : List String :=
  if ("doc_id") ∈ cols2 t ∧ ("doc_id") ∈ t.documents.cols
  then mergedCols (cols2 t) t.documents.cols ("doc_id") ("_doc") else cols2 t

/-- A successful validated merge preserves the left row count, produces the
merged column list, and certifies key presence and right-key uniqueness. -/
theorem mergeM1_ok_spec {l r : DF} {key sfx : String} {d : DF}
    (h : mergeM1 l r key sfx = .ok d) :
    d.rows.length = l.rows.length ∧ d.cols = mergedCols l.cols r.cols key sfx ∧
      (key ∈ l.cols ∧ key ∈ r.cols) ∧ (r.rows.map (fun rr => rowCell rr key)).Nodup := by
  unfold mergeM1 at h
  split at h
  · split at h
    · simp only [Except.ok.injEq] at h
      subst h
      refine ⟨by simp, rfl, by assumption, by assumption⟩
    · simp at h
  · simp at h

theorem exbind_ok {ε α β : Type} (a : α) (f : α → Except ε β) :
    Except.bind (.ok a) f = f a := rfl

theorem exbind_error {ε α β : Type} (e : ε) (f : α → Except ε β) :
    Except.bind (.error e) f = .error e := rfl

/-- Bucket-column derivation never changes the row count. -/
theorem addBucketCol_length (df : DF) (srcCol dstCol : String)
    (f : Option Rat → Option String) :
    (addBucketCol df srcCol dstCol f).rows.length = df.rows.length := by
  unfold addBucketCol
  split
  · simp only [DF.addCol, DF.col, List.length_map, List.length_zip]
    split
    · simp
    · simp
  · rfl

/-- Everything a successful flat-table build certifies: the output has one row
per input event, and every validated merge that ran had unique right keys. -/
theorem buildFlat_ok_spec {t : Tables} {df : DF} (h : buildFlat t = .ok df) :
    df.rows.length = t.events.rows.length ∧
    (t.runs.rows.map (fun rr => rowCell rr ("run_id"))).Nodup ∧
    (t.chunks.rows.map (fun rr => rowCell rr ("chunk_id"))).Nodup ∧
    ((("doc_id") ∈ cols2 t ∧ ("doc_id") ∈ t.documents.cols) →
      (t.documents.rows.map (fun rr => rowCell rr ("doc_id"))).Nodup) ∧
    ((("scenario_id") ∈ cols3 t ∧ ("scenario_id") ∈ t.scenarios.cols) →
      (t.scenarios.rows.map (fun rr => rowCell rr ("scenario_id"))).Nodup) := by
  unfold buildFlat at h
  simp only [bind] at h
  cases h1 : mergeM1 t.events t.runs ("run_id") ("_run") with
  | error e => rw [h1, exbind_error] at h; simp at h
  | ok df1 =>
  rw [h1, exbind_ok] at h
  obtain ⟨hlen1, hcols1, _, hnodup1⟩ := mergeM1_ok_spec h1
  cases h2 : mergeM1 df1 t.chunks ("chunk_id") ("_chunk") with
  | error e => rw [h2, exbind_error] at h; simp at h
  | ok df2 =>
  rw [h2, exbind_ok] at h
  obtain ⟨hlen2, hcols2, _, hnodup2⟩ := mergeM1_ok_spec h2
  have hc2 : df2.cols = cols2 t := by rw [hcols2, hcols1]; rfl
  by_cases hdoc : ("doc_id") ∈ df2.cols ∧ ("doc_id") ∈ t.documents.cols
  · rw [if_pos hdoc] at h
    cases h3 : mergeM1 df2 t.documents ("doc_id") ("_doc") with
    | error e => rw [h3, exbind_error] at h; simp at h
    | ok df3 =>
    rw [h3, exbind_ok] at h
    obtain ⟨hlen3, hcols3, _, hnodup3⟩ := mergeM1_ok_spec h3
    have hdoc' : ("doc_id") ∈ cols2 t ∧ ("doc_id") ∈ t.documents.cols := by
      rw [← hc2]; exact hdoc
    have hc3 : df3.cols = cols3 t := by
      rw [hcols3, hc2]
      unfold cols3
      rw [if_pos hdoc']
    by_cases hscen : ("scenario_id") ∈ df3.cols ∧ ("scenario_id") ∈ t.scenarios.cols
    · rw [if_pos hscen] at h
      cases h4 : mergeM1 df3 t.scenarios ("scenario_id") ("_scenario") with
      | error e => rw [h4, exbind_error] at h; simp at h
      | ok df4 =>
      rw [h4, exbind_ok] at h
      simp only [Except.ok.injEq] at h
      obtain ⟨hlen4, _, _, hnodup4⟩ := mergeM1_ok_spec h4
      subst h
      refine ⟨?_, hnodup1, hnodup2, fun _ => hnodup3, fun _ => hnodup4⟩
      rw [addBucketCol_length, addBucketCol_length, hlen4, hlen3, hlen2, hlen1]
    · rw [if_neg hscen] at h
      simp only [pure, Except.pure, exbind_ok, Except.ok.injEq] at h
      subst h
      refine ⟨?_, hnodup1, hnodup2, fun _ => hnodup3, fun hs => absurd ?_ hscen⟩
      · rw [addBucketCol_length, addBucketCol_length, hlen3, hlen2, hlen1]
      · rw [hc3]; exact hs
  · rw [if_neg hdoc] at h
    simp only [pure, Except.pure, exbind_ok] at h
    by_cases hscen : ("scenario_id") ∈ df2.cols ∧ ("scenario_id") ∈ t.scenarios.cols
    · rw [if_pos hscen] at h
      cases h4 : mergeM1 df2 t.scenarios ("scenario_id") ("_scenario") with
      | error e => rw [h4, exbind_error] at h; simp at h
      | ok df4 =>
      rw [h4, exbind_ok] at h
      simp only [Except.ok.injEq] at h
      obtain ⟨hlen4, _, _, hnodup4⟩ := mergeM1_ok_spec h4
      subst h
      refine ⟨?_, hnodup1, hnodup2, fun hd => absurd ?_ hdoc, fun _ => hnodup4⟩
      · rw [addBucketCol_length, addBucketCol_length, hlen4, hlen2, hlen1]
      · rw [hc2]; exact hd
    · rw [if_neg hscen] at h
      simp only [Except.ok.injEq] at h
      subst h
      refine ⟨?_, hnodup1, hnodup2, fun hd => absurd ?_ hdoc, fun hs => absurd ?_ hscen⟩
      · rw [addBucketCol_length, addBucketCol_length, hlen2, hlen1]
      · rw [hc2]; exact hd
      · have hdoc2 : ¬ (("doc_id") ∈ cols2 t ∧ ("doc_id") ∈ t.documents.cols) := by
          rw [← hc2]; exact hdoc
        have hc3 : cols3 t = cols2 t := by
          unfold cols3
          rw [if_neg hdoc2]
        rw [hc2, ← hc3]
        exact hs

/-! ## Claim C2 -/

/-- C2: joiner row-count invariant — when every join key is truly many-to-one
(unique right-side keys for every validated merge that runs), the flat table
has exactly as many rows as the events table; success certifies the m:1
cardinality of every executed merge, and a one-to-many relationship (duplicate
right keys) makes the join fail loudly with an error instead of silently
duplicating rows. -/
theorem joiner_row_count_invariant (t : Tables) :
    (∀ df, buildFlat t = .ok df → df.rows.length = t.events.rows.length) ∧
    (∀ df, buildFlat t = .ok df →
      (t.runs.rows.map (fun rr => rowCell rr ("run_id"))).Nodup ∧
      (t.chunks.rows.map (fun rr => rowCell rr ("chunk_id"))).Nodup ∧
      ((("doc_id") ∈ cols2 t ∧ ("doc_id") ∈ t.documents.cols) →
        (t.documents.rows.map (fun rr => rowCell rr ("doc_id"))).Nodup) ∧
      ((("scenario_id") ∈ cols3 t ∧ ("scenario_id") ∈ t.scenarios.cols) →
        (t.scenarios.rows.map (fun rr => rowCell rr ("scenario_id"))).Nodup)) ∧
    (("run_id") ∈ t.events.cols → ("run_id") ∈ t.runs.cols →
      ¬ (t.runs.rows.map (fun rr => rowCell rr ("run_id"))).Nodup →
      ∃ e, buildFlat t = .error e) := by
  refine ⟨fun df h => (buildFlat_ok_spec h).1, fun df h => (buildFlat_ok_spec h).2, ?_⟩
  intro hevKey hrKey hdup
  have hmerr : mergeM1 t.events t.runs ("run_id") ("_run") =
      .error ("MergeError: merge keys are not unique in right dataset; not a m:1 merge on "
        ++ ("run_id")) := by
    unfold mergeM1
    rw [if_pos ⟨hevKey, hrKey⟩, if_neg hdup]
  refine ⟨("MergeError: merge keys are not unique in right dataset; not a m:1 merge on "
    ++ ("run_id")), ?_⟩
  unfold buildFlat
  simp only [bind]
  rw [hmerr, exbind_error]

/-- Witness for C2 at the concrete dataset: the flat table build succeeds and
keeps one row per event. -/
theorem joiner_row_count_invariant_witness :
    ∃ df, buildFlat wTables = .ok df ∧ df.rows.length = 2 := by
  cases hres : buildFlat wTables with
  | error e =>
      have hok : (buildFlat wTables).isOk = true := by decide
      rw [hres] at hok
      simp [Except.isOk, Except.toBool] at hok
  | ok df =>
      refine ⟨df, rfl, ?_⟩
      have hlen := (joiner_row_count_invariant wTables).1 df hres
      rw [hlen]
      decide

/-! ## Claim C7 -/

/-- C7: latency bucket boundaries in the joiner — a total_latency_ms of
exactly 250 gets bucket "<=250", 250.01 gets "251-500", 999999 gets ">5000",
and a missing value, or a value outside all bucket edges (at or below the
lowest edge -0.1), gets no bucket. -/
theorem latency_bucket_boundary_assignment :
    latencyBucket (toNumeric (some ("250"))) = some ("<=250") ∧
    latencyBucket (toNumeric (some ("250.01"))) = some ("251-500") ∧
    latencyBucket (toNumeric (some ("999999"))) = some (">5000") ∧
    latencyBucket (toNumeric none) = none ∧
    (∀ v : Rat, latencyBucket (some v) = none ↔ v ≤ mkRat (-1) 10) := by
  refine ⟨by decide, by decide, by decide, rfl, ?_⟩
  intro v
  simp only [latencyBucket]
  split_ifs with h1 h2 h3 h4 h5 h6 <;> simp_all

/-! ## Validator (`scripts/validate_dataset.py`) -/

/-- `_assert`: raise `AssertionError(msg)` when the condition fails. -/
def assertCheck (b : Bool) (msg : String) : Except String Unit :=
  if b then .ok () else .error msg

/-- Run a straight-line sequence of raising checks: the first failure aborts
the whole run (no accumulation of violations). -/
def seqChecks : List (Except String Unit) → Except String Unit
  | [] => .ok ()
  | c :: rest =>
      match c with
      | .error e => .error e
      | .ok _ => seqChecks rest

/-- The first failing check's message, if any. -/
def firstError (l : List (Except String Unit)) : Option String :=
  l.findSome? (fun c => match c with | .error e => some e | .ok _ => none)

theorem seqChecks_eq_firstError (l : List (Except String Unit)) :
    seqChecks l = (match firstError l with
      | some e => .error e
      | none => .ok ()) := by
  induction l with
  | nil => rfl
  | cons c rest ih =>
      cases c with
      | error e => simp [seqChecks, firstError]
      | ok u => simpa [seqChecks, firstError] using ih

/-- `_assert_columns`: fail naming the missing required columns. -/
def assertColumns (df : DF) (cols : List String) (table : String) : Except String Unit :=
  let missing := cols.filter (fun c => decide (c ∉ df.cols))
  assertCheck missing.isEmpty (table ++ ": missing required columns: " ++ toString missing)

/-- Key tuple of a row under the given key columns. -/
def keyOf (r : Row) (cols : List String) : List Cell := cols.map (fun c => rowCell r c)

/-- `_assert_unique`: fail when some key-column combination repeats, showing a
head-5 sample of the offending keys (`duplicated(keep=False)`). -/
def assertUnique (df : DF) (cols : List String) (table : String) : Except String Unit :=
  let keys := df.rows.map (fun r => keyOf r cols)
  if keys.Nodup then .ok ()
  else
    let sample := ((df.rows.filter (fun r => 2 ≤ keys.count (keyOf r cols))).map
      (fun r => keyOf r cols)).take 5
    .error (table ++ ": duplicate key " ++ toString cols ++ ". Sample: " ++ toString sample)

/-- `_assert_not_null`: per present column, fail on the first one containing
nulls, reporting the count. -/
def assertNotNull (df : DF) (cols : List String) (table : String) : Except String Unit :=
  seqChecks (cols.map (fun c =>
    if c ∈ df.cols then
      assertCheck ((((df.col c).filter (fun x => x.isNone)).length) == 0)
        (table ++ "." ++ c ++ ": contains " ++
          toString (((df.col c).filter (fun x => x.isNone)).length) ++ " nulls")
    else .ok ()))

/-- Code-point lexicographic order on character lists (the order Python
`sorted` uses on strings). -/
def lexLe : List Char → List Char → Bool
  | [], _ => true
  | _ :: _, [] => false
  | a :: as, b :: bs =>
      if a.toNat < b.toNat then true
      else if b.toNat < a.toNat then false
      else lexLe as bs

/-- Code-point lexicographic order on strings. -/
def strLe (a b : String) : Bool := lexLe a.toList b.toList

/-- The sorted head-10 list of child FK values with no parent key
(`sorted(list(child_vals - parent_vals))[:10]`). -/
def fkMissing (child : DF) (childCol : String) (parent : DF) (parentCol : String) :
    List String :=
  (List.insertionSort (fun a b => strLe a b = true)
    ((((child.col childCol).filterMap id).dedup).filter
      (fun v => decide (v ∉ ((parent.col parentCol).filterMap id).dedup)))).take 10

/-- The FK failure message. -/
def fkMsg (name : String) (missing : List String) : String :=
  name ++ ": missing FK targets (showing up to 10): " ++ toString missing

/-- `_assert_fk`: pass silently when either column is absent; otherwise fail
exactly when some distinct non-null child value is missing among the distinct
non-null parent values, reporting up to 10 of them. -/
def assertFk (child : DF) (childCol : String) (parent : DF) (parentCol : String)
    (name : String) : Except String Unit :=
  if childCol ∈ child.cols ∧ parentCol ∈ parent.cols then
    assertCheck (fkMissing child childCol parent parentCol).isEmpty
      (fkMsg name (fkMissing child childCol parent parentCol))
  else .ok ()

/-- `_assert_in_set`: drop nulls, fail when a value falls outside the allowed
set, with a head-10 sample. -/
def assertInSet {α : Type} [DecidableEq α] [ToString α] (s : List (Option α))
    (allowed : List α) (name : String) : Except String Unit :=
  let vals := s.filterMap id
  let bad := vals.filter (fun v => decide (v ∉ allowed))
  if bad.isEmpty then .ok ()
  else .error (name ++ ": values outside allowed set. Sample: " ++ toString (bad.take 10))

/-- `_assert_range`: coerce to numbers (non-numeric becomes missing and is
ignored), pass on an empty result, then check the optional lower and upper
bounds in that order. -/
def assertRange (s : List Cell) (lo hi : Option Rat) (name : String) :
    Except String Unit :=
  let vals := s.filterMap toNumeric
  if vals.isEmpty then .ok ()
  else
    let loBad := match lo with
      | some l => vals.filter (fun v => decide (v < l))
      | none => []
    if loBad.isEmpty then
      let hiBad := match hi with
        | some hb => vals.filter (fun v => decide (hb < v))
        | none => []
      if hiBad.isEmpty then .ok ()
      else .error (name ++ ": values above upper bound. Sample: " ++ toString (hiBad.take 10))
    else .error (name ++ ": values below lower bound. Sample: " ++ toString (loBad.take 10))

/-- The allowed boolean-flag values `{0, 1}`. -/
def boolAllowed : List Rat := [0, 1]

/-- One boolean-flag column check: coerce with `pd.to_numeric(errors="coerce")`
then require membership in `{0, 1}`; skipped when the column is absent. -/
def boolColCheck (df : DF) (table col : String) : Except String Unit :=
  if col ∈ df.cols then
    assertInSet ((df.col col).map toNumeric) boolAllowed (table ++ "." ++ col)
  else .ok ()

/-- The boolean-flag columns checked on runs and events. -/
def boolCols : List String :=
  ["is_correct", "hallucination_flag", "has_answer_in_corpus", "is_noanswer_probe",
   "answered_without_retrieval", "is_relevant"]

/-- The retrieval_score sanity check: after replacing infinities with missing,
some value must remain (modelled as: some cell coerces to a finite numeral). -/
def retrievalScoreCheck (events : DF) : Except String Unit :=
  if ("retrieval_score") ∈ events.cols then
    assertCheck ((events.col ("retrieval_score")).any (fun c => (toNumeric c).isSome))
      ("rag_retrieval_events.retrieval_score: all non-finite/NaN?")
  else .ok ()

/-- Text sanity: no stringified value of the column may be empty. -/
def textNonEmptyCheck (df : DF) (col table : String) : Except String Unit :=
  if col ∈ df.cols then
    assertCheck ((((df.col col).filter (fun c => (astypeStr c).length == 0)).length) == 0)
      (table ++ "." ++ col ++ ": empty strings present")
  else .ok ()

/-- The checks of `validate_dataset.py` `main`, in source order: required
columns, primary-key uniqueness, key not-null policy, foreign keys (the
events→scenarios one only when events carry a scenario_id column), boolean
flags on runs then events, the split enum, the rank / retrieval_score /
latency / cost / score ranges, and the text sanity checks. -/
def checkList (t : Tables) : List (Except String Unit) :=
  [assertColumns t.documents ["doc_id"] ("rag_corpus_documents"),
   assertColumns t.chunks ["chunk_id", "doc_id"] ("rag_corpus_chunks"),
   assertColumns t.scenarios ["scenario_id"] ("rag_qa_scenarios"),
   assertColumns t.runs ["run_id", "scenario_id", "example_id", "query_id"] ("rag_qa_eval_runs"),
   assertColumns t.events ["run_id", "chunk_id", "rank", "is_relevant"] ("rag_retrieval_events"),
   assertUnique t.documents ["doc_id"] ("rag_corpus_documents"),
   assertUnique t.chunks ["chunk_id"] ("rag_corpus_chunks"),
   assertUnique t.scenarios ["scenario_id"] ("rag_qa_scenarios"),
   assertUnique t.runs ["run_id"] ("rag_qa_eval_runs"),
   assertUnique t.events ["run_id", "chunk_id", "rank"] ("rag_retrieval_events"),
   assertNotNull t.documents ["doc_id"] ("rag_corpus_documents"),
   assertNotNull t.chunks ["chunk_id", "doc_id"] ("rag_corpus_chunks"),
   assertNotNull t.scenarios ["scenario_id"] ("rag_qa_scenarios"),
   assertNotNull t.runs ["run_id", "scenario_id", "example_id", "query_id"] ("rag_qa_eval_runs"),
   assertNotNull t.events ["run_id", "chunk_id", "rank"] ("rag_retrieval_events"),
   assertFk t.chunks ("doc_id") t.documents ("doc_id") ("chunks.doc_id -> documents.doc_id"),
   assertFk t.runs ("scenario_id") t.scenarios ("scenario_id")
     ("runs.scenario_id -> scenarios.scenario_id"),
   assertFk t.events ("run_id") t.runs ("run_id") ("events.run_id -> runs.run_id"),
   assertFk t.events ("chunk_id") t.chunks ("chunk_id") ("events.chunk_id -> chunks.chunk_id"),
   if ("scenario_id") ∈ t.events.cols then
     assertFk t.events ("scenario_id") t.scenarios ("scenario_id")
       ("events.scenario_id -> scenarios.scenario_id")
   else .ok ()]
  ++ boolCols.map (fun c => boolColCheck t.runs ("rag_qa_eval_runs") c)
  ++ boolCols.map (fun c => boolColCheck t.events ("rag_retrieval_events") c)
  ++ [if ("split") ∈ t.events.cols then
        assertInSet (t.events.col ("split")) ["train", "val", "test"]
          ("rag_retrieval_events.split")
      else .ok (),
      if ("rank") ∈ t.events.cols then
        assertRange (t.events.col ("rank")) (some 1) none ("rag_retrieval_events.rank")
      else .ok (),
      retrievalScoreCheck t.events]
  ++ ["total_latency_ms", "retrieval_latency_ms", "generation_latency_ms"].map (fun c =>
      if c ∈ t.runs.cols then
        assertRange (t.runs.col c) (some 0) none ("rag_qa_eval_runs." ++ c)
      else .ok ())
  ++ [if ("total_cost_usd") ∈ t.runs.cols then
        assertRange (t.runs.col ("total_cost_usd")) (some 0) none
          ("rag_qa_eval_runs.total_cost_usd")
      else .ok ()]
  ++ ["recall_at_k", "mrr_at_10", "faithfulness_score"].map (fun c =>
      if c ∈ t.runs.cols then
        assertRange (t.runs.col c) (some 0) (some 1) ("rag_qa_eval_runs." ++ c)
      else .ok ())
  ++ [textNonEmptyCheck t.chunks ("chunk_text") ("rag_corpus_chunks"),
      textNonEmptyCheck t.runs ("query") ("rag_qa_eval_runs")]

/-- The whole raising check sequence of `main`. -/
def runChecks (t : Tables) : Except String Unit := seqChecks (checkList t)

/-- The five fixed CSV reads of `main`, in source order; the first missing
file raises `FileNotFoundError` (its name is the error payload). -/
def loadTables (fs : String → Option DF) : Except String Tables := do
  let readF : String → Except String DF := fun nm =>
    match fs nm with
    | some df => .ok df
    | none => .error nm
  let documents ← readF ("rag_corpus_documents.csv")
  let chunks ← readF ("rag_corpus_chunks.csv")
  let runs ← readF ("rag_qa_eval_runs.csv")
  let scenarios ← readF ("rag_qa_scenarios.csv")
  let events ← readF ("rag_retrieval_events.csv")
  .ok ⟨documents, chunks, runs, scenarios, events⟩

/-- Observable outcome of one validator invocation: the confirmation print
with exit 0, the AssertionError print on stderr with exit 1, or the uncaught
FileNotFoundError path (distinct from the AssertionError handler). -/
inductive Outcome where
  | passed (confirmation : String)
  | failed (errLine : String)
  | fileError (path : String)
deriving Repr, DecidableEq

/-- The `__main__` block: run `main()` under the AssertionError handler. -/
def validateMain (fs : String → Option DF) : Outcome :=
  match loadTables fs with
  | .error p => .fileError p
  | .ok t =>
      match runChecks t with
      | .ok _ => .passed ("✅ Dataset validation passed.")
      | .error e => .failed ("❌ " ++ e)

/-- Process exit code of each outcome (an uncaught FileNotFoundError also
terminates the interpreter with a nonzero code, through a distinct path). -/
def exitCodeOf : Outcome → Nat
  | .passed _ => 0
  | .failed _ => 1
  | .fileError _ => 1

/-! ## Claim C5 -/

/-- The concrete tiny dataset as a loadable file system. -/
def wFs : String → Option DF := fun nm =>
  if nm == "rag_corpus_documents.csv" then some wDocuments
  else if nm == "rag_corpus_chunks.csv" then some wChunks
  else if nm == "rag_qa_eval_runs.csv" then some wRuns
  else if nm == "rag_qa_scenarios.csv" then some wScenarios
  else if nm == "rag_retrieval_events.csv" then some wEvents
  else none

/-- C5: validator failure behaviour — the check sequence short-circuits: its
outcome is exactly the first failing check's error, so no later check
contributes; an all-pass run prints the confirmation and exits 0; a failing
run prints the violation with the error marker and exits 1; and a missing
input file terminates through a distinct failure path (a different outcome
constructor than both the pass and the AssertionError handler paths) before
any check runs. -/
theorem validator_failure_behavior :
    (∀ t, runChecks t = (match firstError (checkList t) with
        | some e => Except.error e
        | none => Except.ok ())) ∧
    (∀ fs t, loadTables fs = .ok t → runChecks t = .ok () →
      validateMain fs = .passed ("✅ Dataset validation passed.") ∧
      exitCodeOf (validateMain fs) = 0) ∧
    (∀ fs t e, loadTables fs = .ok t → runChecks t = .error e →
      validateMain fs = .failed ("❌ " ++ e) ∧
      exitCodeOf (validateMain fs) = 1) ∧
    (∀ fs p, loadTables fs = .error p → validateMain fs = .fileError p) ∧
    (∀ p s, Outcome.fileError p ≠ .passed s ∧ Outcome.fileError p ≠ .failed s) := by
  refine ⟨fun t => seqChecks_eq_firstError (checkList t), ?_, ?_, ?_, ?_⟩
  · intro fs t hload hchecks
    unfold validateMain
    rw [hload]
    simp only [hchecks]
    constructor <;> trivial
  · intro fs t e hload hchecks
    unfold validateMain
    rw [hload]
    simp only [hchecks]
    constructor <;> trivial
  · intro fs p hload
    unfold validateMain
    rw [hload]
  · intro p s
    exact ⟨by simp, by simp⟩

/-- Witness for C5: the concrete dataset loads, passes every check, prints the
confirmation and exits 0. -/
theorem validator_failure_behavior_witness :
    validateMain wFs = .passed ("✅ Dataset validation passed.") ∧
    exitCodeOf (validateMain wFs) = 0 :=
  validator_failure_behavior.2.1 wFs wTables (by rfl) (by rfl)

/-! ## Claim C3 -/

theorem assertCheck_ok_iff {b : Bool} {msg : String} :
    assertCheck b msg = .ok () ↔ b = true := by
  unfold assertCheck
  split <;> simp_all

theorem assertCheck_error {b : Bool} {msg : String} (h : b = false) :
    assertCheck b msg = .error msg := by
  unfold assertCheck
  rw [h]
  rfl

/-- The FK missing list is empty exactly when the non-null child values are a
subset of the non-null parent values. -/
theorem fkMissing_eq_nil_iff {child parent : DF} {cc pc : String} :
    fkMissing child cc parent pc = [] ↔
      ∀ v ∈ (child.col cc).filterMap id, v ∈ (parent.col pc).filterMap id := by
  unfold fkMissing
  rw [List.take_eq_nil_iff]
  constructor
  · rintro (h10 | hnil)
    · exact absurd h10 (by decide)
    · intro v hv
      have hperm := List.perm_insertionSort (fun a b => strLe a b = true)
        ((((child.col cc).filterMap id).dedup).filter
          (fun v => decide (v ∉ ((parent.col pc).filterMap id).dedup)))
      rw [hnil] at hperm
      have hfil := hperm.symm.eq_nil
      rw [List.filter_eq_nil] at hfil
      have := hfil v (List.mem_dedup.mpr hv)
      simp only [decide_eq_true_eq, not_not] at this
      exact List.mem_dedup.mp this
  · intro hsub
    right
    have hfil : ((((child.col cc).filterMap id).dedup).filter
        (fun v => decide (v ∉ ((parent.col pc).filterMap id).dedup))) = [] := by
      rw [List.filter_eq_nil]
      intro a ha
      simp only [decide_eq_true_eq, not_not]
      exact List.mem_dedup.mpr (hsub a (List.mem_dedup.mp ha))
    rw [hfil]
    rfl

/-- The chunks table with a dangling doc_id, the spec's negative FK scenario. -/
def wChunksBad : DF :=
  ⟨["chunk_id", "doc_id"],
   [[(("chunk_id" : String), some ("c1")), (("doc_id" : String), some ("dX"))]]⟩

/-- C3: the foreign-key check compares the distinct non-null child values with
the distinct non-null parent values, passes silently when either column is
absent, and otherwise fails exactly when the child set is not a subset of the
parent set; a failure reports at most 10 values, each a real dangling child
value; concretely, chunk c1 with doc_id d1 against document d1 passes, while
doc_id dX with no matching document fails naming dX. -/
theorem foreign_key_check :
    (∀ child cc parent pc name, assertFk child cc parent pc name = .ok () ↔
       (cc ∉ child.cols ∨ pc ∉ parent.cols ∨
        ∀ v ∈ (child.col cc).filterMap id, v ∈ (parent.col pc).filterMap id)) ∧
    (∀ child cc parent pc name, assertFk child cc parent pc name = .ok () ∨
       (assertFk child cc parent pc name
          = .error (fkMsg name (fkMissing child cc parent pc)) ∧
        (fkMissing child cc parent pc).length ≤ 10 ∧
        ∀ v ∈ fkMissing child cc parent pc,
          v ∈ (child.col cc).filterMap id ∧ v ∉ (parent.col pc).filterMap id)) ∧
    assertFk wChunks ("doc_id") wDocuments ("doc_id")
      ("chunks.doc_id -> documents.doc_id") = .ok () ∧
    assertFk wChunksBad ("doc_id") wDocuments ("doc_id")
      ("chunks.doc_id -> documents.doc_id")
      = .error (fkMsg ("chunks.doc_id -> documents.doc_id") ["dX"]) := by
  refine ⟨?_, ?_, by decide, by decide⟩
  · intro child cc parent pc name
    unfold assertFk
    split
    case isTrue hcols =>
      rw [assertCheck_ok_iff, List.isEmpty_iff, fkMissing_eq_nil_iff]
      constructor
      · intro h
        exact Or.inr (Or.inr h)
      · rintro (h | h | h)
        · exact absurd hcols.1 h
        · exact absurd hcols.2 h
        · exact h
    case isFalse hcols =>
      constructor
      · intro _
        rcases not_and_or.mp hcols with h | h
        · exact Or.inl h
        · exact Or.inr (Or.inl h)
      · intro _
        rfl
  · intro child cc parent pc name
    unfold assertFk
    split
    case isFalse hcols => exact Or.inl rfl
    case isTrue hcols =>
      by_cases hemp : fkMissing child cc parent pc = []
      · left
        rw [assertCheck_ok_iff, List.isEmpty_iff]
        exact hemp
      · right
        refine ⟨assertCheck_error (by simp [List.isEmpty_iff, hemp]), ?_, ?_⟩
        · unfold fkMissing
          exact List.length_take_le _ _
        · intro v hv
          unfold fkMissing at hv
          have hv' := List.take_subset _ _ hv
          have hv2 := (List.perm_insertionSort _ _).mem_iff.mp hv'
          rw [List.mem_filter] at hv2
          obtain ⟨hvc, hvp⟩ := hv2
          refine ⟨List.mem_dedup.mp hvc, ?_⟩
          intro hmem
          rw [decide_eq_true_eq] at hvp
          exact hvp (List.mem_dedup.mpr hmem)

/-! ## Claim C10 -/

/-- A runs table whose boolean column holds only non-numeric string
representations. -/
def dfBoolStrings : DF :=
  ⟨["is_correct"],
   [[(("is_correct" : String), some ("True"))], [(("is_correct" : String), some ("yes"))]]⟩

/-- A runs table whose boolean column holds a numeric value outside {0, 1}. -/
def dfBoolBad : DF :=
  ⟨["is_correct"], [[(("is_correct" : String), some ("2"))]]⟩

/-- C10: the boolean-flag check coerces each value to numeric with best-effort
conversion, drops values that do not parse, and raises exactly when some value
coerces to a number other than 0 or 1; non-numeric representations such as
"True" or "yes" become missing under coercion and are never reported, so a
table whose boolean column contains only such strings passes, while a numeric
2 is rejected. -/
theorem bool_flag_coercion_check :
    (∀ df table col, boolColCheck df table col = .ok () ↔
       (col ∉ df.cols ∨
        ∀ c ∈ df.col col, ∀ q, toNumeric c = some q → q = 0 ∨ q = 1)) ∧
    parseRatStr ("True") = none ∧ parseRatStr ("yes") = none ∧
    boolColCheck dfBoolStrings ("rag_qa_eval_runs") ("is_correct") = .ok () ∧
    boolColCheck dfBoolBad ("rag_qa_eval_runs") ("is_correct")
      = .error ("rag_qa_eval_runs.is_correct: values outside allowed set. Sample: "
          ++ toString [(2 : Rat)]) := by
  refine ⟨?_, rfl, rfl, by decide, by decide⟩
  intro df table col
  unfold boolColCheck
  split
  case isFalse hc => simp [hc]
  case isTrue hc =>
    unfold assertInSet
    dsimp only
    split
    case isTrue hb =>
      rw [List.isEmpty_iff, List.filter_eq_nil] at hb
      constructor
      · intro _
        right
        intro c hcmem q hq
        have hqv : q ∈ ((df.col col).map toNumeric).filterMap id := by
          rw [List.filterMap_map]
          exact List.mem_filterMap.mpr ⟨c, hcmem, hq⟩
        have := hb q hqv
        simp only [decide_eq_true_eq, not_not, boolAllowed] at this
        simpa using this
      · intro _
        rfl
    case isFalse hb =>
      rw [List.isEmpty_iff] at hb
      constructor
      · intro h
        exact absurd h (by simp)
      · rintro (h | h)
        · exact absurd hc h
        · exfalso
          apply hb
          rw [List.filter_eq_nil]
          intro q hq
          rw [List.filterMap_map] at hq
          obtain ⟨c, hcmem, hqc⟩ := List.mem_filterMap.mp hq
          have := h c hcmem q hqc
          simp only [decide_eq_true_eq, not_not, boolAllowed]
          simpa using this

/-! ## Summarizer (`scripts/summarize_dataset.py`)

Numeric rendering (`:.2f`, `:.6f`, thousands separators) is abstracted to
`toString`; what the claims are about — which sections appear and whether the
run completes — is modelled exactly. -/

/-- Mean of a numeric series after dropping missing values; `none` is the NaN
that an empty series produces. -/
def meanOpt (vals : List Rat) : Option Rat :=
  if vals.isEmpty then none else some (vals.sum / (vals.length : Rat))

/-- `df[c].mean()` over the numerically coercible values. -/
def colMean (df : DF) (c : String) : Option Rat :=
  meanOpt ((df.col c).filterMap toNumeric)

/-- `_pct`. -/
def pctStr (x : Rat) : String := toString (100 * x) ++ "%"

/-- Linear-interpolation quantile (pandas `Series.quantile`). -/
def quantileR (sorted : List Rat) (q : Rat) : Rat :=
  if sorted.isEmpty then 0
  else
    let pos := q * ((sorted.length : Rat) - 1)
    let i := pos.floor.toNat
    let vi := sorted.getD i 0
    let vj := sorted.getD (i + 1) vi
    vi + (vj - vi) * (pos - (i : Rat))

/-- `_p`: the p50/p90/p95/p99 dictionary, `none` when the column is empty
after dropping missing values. -/
def pstats (df : DF) (c : String) : Option (Rat × Rat × Rat × Rat) :=
  if ((df.col c).filterMap toNumeric).isEmpty then none
  else
    some (quantileR (List.insertionSort (fun a b : Rat => a ≤ b)
            ((df.col c).filterMap toNumeric)) (mkRat 1 2),
          quantileR (List.insertionSort (fun a b : Rat => a ≤ b)
            ((df.col c).filterMap toNumeric)) (mkRat 9 10),
          quantileR (List.insertionSort (fun a b : Rat => a ≤ b)
            ((df.col c).filterMap toNumeric)) (mkRat 95 100),
          quantileR (List.insertionSort (fun a b : Rat => a ≤ b)
            ((df.col c).filterMap toNumeric)) (mkRat 99 100))

/-- `value_counts(dropna=False)`: distinct values (missing included) with
their multiplicities, sorted by descending count. -/
def valueCounts (cells : List Cell) : List (Cell × Nat) :=
  List.insertionSort (fun a b : Cell × Nat => b.2 ≤ a.2)
    (cells.dedup.map (fun k => (k, cells.count k)))

/-- `events.loc[events["rank"] <= k, "is_relevant"].mean()`. -/
def relAt (events : DF) (k : Nat) : Option Rat :=
  meanOpt ((events.rows.filter (fun r =>
    match toNumeric (rowCell r ("rank")) with
    | some q => decide (q ≤ (k : Rat))
    | none => false)).filterMap (fun r => toNumeric (rowCell r ("is_relevant"))))

/-- Accuracy when the `is_correct` column exists (NaN otherwise). -/
def accOf (t : Tables) : Option Rat :=
  if ("is_correct") ∈ t.runs.cols then colMean t.runs ("is_correct") else none

/-- Hallucination rate when the `hallucination_flag` column exists. -/
def hallOf (t : Tables) : Option Rat :=
  if ("hallucination_flag") ∈ t.runs.cols then colMean t.runs ("hallucination_flag") else none

/-- Cost percentiles when the `total_cost_usd` column exists. -/
def costOf (t : Tables) : Option (Rat × Rat × Rat × Rat) :=
  if ("total_cost_usd") ∈ t.runs.cols then pstats t.runs ("total_cost_usd") else none

/-- Latency percentiles when the `total_latency_ms` column exists. -/
def latOf (t : Tables) : Option (Rat × Rat × Rat × Rat) :=
  if ("total_latency_ms") ∈ t.runs.cols then pstats t.runs ("total_latency_ms") else none

/-- `{"rank", "is_relevant"} <= set(events.columns)`. -/
def hasRankRel (t : Tables) : Bool :=
  decide (("rank") ∈ t.events.cols) && decide (("is_relevant") ∈ t.events.cols)

/-- rel@5 when rank and is_relevant exist. -/
def rel5Of (t : Tables) : Option Rat :=
  if hasRankRel t then relAt t.events 5 else none

/-- rel@10 when rank and is_relevant exist. -/
def rel10Of (t : Tables) : Option Rat :=
  if hasRankRel t then relAt t.events 10 else none

/-- A conditional report line (`if not pd.isna(x): md.append(...)`). -/
def optLine {β : Type} : Option β → (β → String) → List String
  | some b, f => [f b]
  | none, _ => []

def accBullet (a : Rat) : String :=
  "- **Accuracy (mean is_correct):** " ++ (pctStr a ++ "\n")

def hallBullet (h : Rat) : String :=
  "- **Hallucination rate (mean hallucination_flag):** " ++ (pctStr h ++ "\n")

def rel5Bullet (r : Rat) : String :=
  "- **rel@5 (mean is_relevant where rank<=5):** " ++ (pctStr r ++ "\n")

def rel10Bullet (r : Rat) : String :=
  "- **rel@10 (mean is_relevant where rank<=10):** " ++ (pctStr r ++ "\n")

/-- One `| value | count |` table row. -/
def countRow (p : Cell × Nat) : String :=
  "| " ++ (astypeStr p.1 ++ (" | " ++ (toString p.2 ++ " |\n")))

/-- The five table-size rows. -/
def tableSizesRows (t : Tables) : List String :=
  ["| " ++ ("rag_corpus_documents | " ++ (toString t.documents.rows.length ++ " |\n")),
   "| " ++ ("rag_corpus_chunks | " ++ (toString t.chunks.rows.length ++ " |\n")),
   "| " ++ ("rag_qa_scenarios | " ++ (toString t.scenarios.rows.length ++ " |\n")),
   "| " ++ ("rag_qa_eval_runs | " ++ (toString t.runs.rows.length ++ " |\n")),
   "| " ++ ("rag_retrieval_events | " ++ (toString t.events.rows.length ++ " |\n"))]

/-- The cost percentile section (empty when the stats dictionary is empty). -/
def costSection : Option (Rat × Rat × Rat × Rat) → List String
  | none => []
  | some (p50, p90, p95, p99) =>
      ["\n## Cost percentiles (USD)\n",
       "| p50 | p90 | p95 | p99 |\n|---:|---:|---:|---:|\n",
       "| " ++ (toString p50 ++ (" | " ++ (toString p90 ++ (" | " ++ (toString p95
         ++ (" | " ++ (toString p99 ++ " |\n")))))))]

/-- The latency percentile section. -/
def latSection : Option (Rat × Rat × Rat × Rat) → List String
  | none => []
  | some (p50, p90, p95, p99) =>
      ["\n## Latency percentiles (ms)\n",
       "| p50 | p90 | p95 | p99 |\n|---:|---:|---:|---:|\n",
       "| " ++ (toString p50 ++ (" | " ++ (toString p90 ++ (" | " ++ (toString p95
         ++ (" | " ++ (toString p99 ++ " |\n")))))))]

/-- The markdown report lines, in source append order. -/
def mdReport (t : Tables) (stratCells domCells : List Cell) : List String :=
  ["# Dataset Stats\n",
   "- **Total rows:** **" ++ (toString (t.documents.rows.length + t.chunks.rows.length
     + t.runs.rows.length + t.scenarios.rows.length + t.events.rows.length)
     ++ "** across 5 data tables (+ data dictionary)\n"),
   "## Table sizes\n",
   "| " ++ "Table | Rows |\n|---|---:|\n"]
  ++ tableSizesRows t
  ++ ["\n## Labels & quality signals\n"]
  ++ optLine (accOf t) accBullet
  ++ optLine (hallOf t) hallBullet
  ++ ["\n## Retrieval relevance @k\n"]
  ++ optLine (rel5Of t) rel5Bullet
  ++ optLine (rel10Of t) rel10Bullet
  ++ costSection (costOf t)
  ++ latSection (latOf t)
  ++ ["\n## Top retrieval strategies\n", "| " ++ "retrieval_strategy | count |\n|---|---:|\n"]
  ++ (valueCounts stratCells).map countRow
  ++ ["\n## Top domains (runs)\n", "| " ++ "domain | count |\n|---|---:|\n"]
  ++ ((valueCounts domCells).take 20).map countRow

/-- `summarize_dataset.py` `main` after loading: the strategy and domain
distributions are taken from unguarded column accesses (raising `KeyError`
when absent), every other statistic is guarded by column presence, and the
report is rendered from whatever is available. -/
def summarizeMain (t : Tables) : Except String (List String) := do
  let stratCells ← t.runs.getCol ("retrieval_strategy")
  let domCells ← t.runs.getCol ("domain")
  .ok (mdReport t stratCells domCells)

/-! ## String prefix machinery for reasoning about report lines -/

/-- `listStarts s p`: `p` is a prefix of `s` (on character lists). -/
def listStarts : List Char → List Char → Bool
  | _, [] => true
  | [], _ :: _ => false
  | c :: cs, d :: ds => c == d && listStarts cs ds

/-- `strStarts s p`: the string `s` starts with `p`. -/
def strStarts (s p : String) : Bool := listStarts s.data p.data

theorem listStarts_refl_append (l m : List Char) : listStarts (l ++ m) l = true := by
  induction l with
  | nil => cases m <;> rfl
  | cons c cs ih => simp [listStarts, ih]

theorem strStarts_append_self (p d : String) : strStarts (p ++ d) p = true := by
  unfold strStarts
  rw [String.data_append]
  exact listStarts_refl_append _ _

/-- When the fixed head of a line already disagrees with `p`, no continuation
can make the line start with `p`. -/
theorem listStarts_append_false {a : List Char} {b p : List Char}
    (h : listStarts a (p.take a.length) = false) :
    listStarts (a ++ b) p = false := by
  induction a generalizing p with
  | nil => simp [listStarts, List.take] at h
  | cons c cs ih =>
      cases p with
      | nil => simp [listStarts] at h
      | cons d ds =>
          simp only [List.length_cons, List.take_succ_cons, listStarts, List.cons_append] at h ⊢
          cases hcd : (c == d)
          · simp [hcd]
          · simp only [hcd, Bool.true_and] at h ⊢
            exact ih h

theorem strStarts_append_false {a b p : String}
    (h : listStarts a.data (p.data.take a.data.length) = false) :
    strStarts (a ++ b) p = false := by
  unfold strStarts
  rw [String.data_append]
  exact listStarts_append_false h

/-! ## Claim C8 -/

/-- The unconditional section header lines of the report. -/
def mdConstLines : List String :=
  ["# Dataset Stats\n", "## Table sizes\n", "\n## Labels & quality signals\n",
   "\n## Retrieval relevance @k\n", "\n## Top retrieval strategies\n",
   "\n## Top domains (runs)\n"]

theorem mem_optLine {β : Type} {o : Option β} {f : β → String} {s : String}
    (h : s ∈ optLine o f) : ∃ b, o = some b ∧ s = f b := by
  cases o with
  | none => simp [optLine] at h
  | some b =>
      simp [optLine] at h
      exact ⟨b, rfl, h⟩

theorem mem_costSection {o : Option (Rat × Rat × Rat × Rat)} {s : String}
    (h : s ∈ costSection o) :
    o ≠ none ∧ (s = "\n## Cost percentiles (USD)\n" ∨ ∃ d, s = "| " ++ d) := by
  cases o with
  | none => simp [costSection] at h
  | some q =>
      obtain ⟨p50, p90, p95, p99⟩ := q
      refine ⟨by simp, ?_⟩
      simp only [costSection, List.mem_cons, List.not_mem_nil, or_false] at h
      rcases h with h | h | h
      · exact Or.inl h
      · exact Or.inr ⟨"p50 | p90 | p95 | p99 |\n|---:|---:|---:|---:|\n", by rw [h]; decide⟩
      · exact Or.inr ⟨_, h⟩

theorem mem_latSection {o : Option (Rat × Rat × Rat × Rat)} {s : String}
    (h : s ∈ latSection o) :
    o ≠ none ∧ (s = "\n## Latency percentiles (ms)\n" ∨ ∃ d, s = "| " ++ d) := by
  cases o with
  | none => simp [latSection] at h
  | some q =>
      obtain ⟨p50, p90, p95, p99⟩ := q
      refine ⟨by simp, ?_⟩
      simp only [latSection, List.mem_cons, List.not_mem_nil, or_false] at h
      rcases h with h | h | h
      · exact Or.inl h
      · exact Or.inr ⟨"p50 | p90 | p95 | p99 |\n|---:|---:|---:|---:|\n", by rw [h]; decide⟩
      · exact Or.inr ⟨_, h⟩

/-- Every line of the report is a constant header, a fixed-head table or
bullet line, or one of the conditional section pieces (present only when
their statistic is available). -/
theorem mdReport_shapes (t : Tables) (sc dc : List Cell) :
    ∀ s ∈ mdReport t sc dc,
      s ∈ mdConstLines ∨
      (∃ d, s = "- **Total rows:** **" ++ d) ∨
      (∃ d, s = "| " ++ d) ∨
      (accOf t ≠ none ∧ ∃ d, s = "- **Accuracy (mean is_correct):** " ++ d) ∨
      (hallOf t ≠ none ∧ ∃ d, s = "- **Hallucination rate (mean hallucination_flag):** " ++ d) ∨
      (rel5Of t ≠ none ∧ ∃ d, s = "- **rel@5 (mean is_relevant where rank<=5):** " ++ d) ∨
      (rel10Of t ≠ none ∧ ∃ d, s = "- **rel@10 (mean is_relevant where rank<=10):** " ++ d) ∨
      (costOf t ≠ none ∧ s = "\n## Cost percentiles (USD)\n") ∨
      (latOf t ≠ none ∧ s = "\n## Latency percentiles (ms)\n") := by
  intro s hs
  unfold mdReport at hs
  simp only [List.mem_append] at hs
  rcases hs with
    (((((((((((((h | h) | h) | h) | h) | h) | h) | h) | h) | h) | h) | h) | h) | h)
  · simp only [List.mem_cons, List.not_mem_nil, or_false] at h
    rcases h with rfl | rfl | rfl | rfl
    · exact Or.inl (by decide)
    · exact Or.inr (Or.inl ⟨_, rfl⟩)
    · exact Or.inl (by decide)
    · exact Or.inr (Or.inr (Or.inl ⟨_, rfl⟩))
  · simp only [tableSizesRows, List.mem_cons, List.not_mem_nil, or_false] at h
    rcases h with rfl | rfl | rfl | rfl | rfl <;>
      exact Or.inr (Or.inr (Or.inl ⟨_, rfl⟩))
  · simp only [List.mem_cons, List.not_mem_nil, or_false] at h
    rcases h with rfl
    exact Or.inl (by decide)
  · obtain ⟨b, hb, rfl⟩ := mem_optLine h
    exact Or.inr (Or.inr (Or.inr (Or.inl ⟨by simp [hb], _, rfl⟩)))
  · obtain ⟨b, hb, rfl⟩ := mem_optLine h
    exact Or.inr (Or.inr (Or.inr (Or.inr (Or.inl ⟨by simp [hb], _, rfl⟩))))
  · simp only [List.mem_cons, List.not_mem_nil, or_false] at h
    rcases h with rfl
    exact Or.inl (by decide)
  · obtain ⟨b, hb, rfl⟩ := mem_optLine h
    exact Or.inr (Or.inr (Or.inr (Or.inr (Or.inr (Or.inl ⟨by simp [hb], _, rfl⟩)))))
  · obtain ⟨b, hb, rfl⟩ := mem_optLine h
    exact Or.inr (Or.inr (Or.inr (Or.inr (Or.inr (Or.inr (Or.inl ⟨by simp [hb], _, rfl⟩))))))
  · obtain ⟨hne, hd⟩ := mem_costSection h
    rcases hd with rfl | ⟨d, rfl⟩
    · exact Or.inr (Or.inr (Or.inr (Or.inr (Or.inr (Or.inr (Or.inr (Or.inl ⟨hne, rfl⟩)))))))
    · exact Or.inr (Or.inr (Or.inl ⟨_, rfl⟩))
  · obtain ⟨hne, hd⟩ := mem_latSection h
    rcases hd with rfl | ⟨d, rfl⟩
    · exact Or.inr (Or.inr (Or.inr (Or.inr (Or.inr (Or.inr (Or.inr (Or.inr ⟨hne, rfl⟩)))))))
    · exact Or.inr (Or.inr (Or.inl ⟨_, rfl⟩))
  · simp only [List.mem_cons, List.not_mem_nil, or_false] at h
    rcases h with rfl | rfl
    · exact Or.inl (by decide)
    · exact Or.inr (Or.inr (Or.inl ⟨_, rfl⟩))
  · obtain ⟨pr, _, rfl⟩ := List.mem_map.mp h
    exact Or.inr (Or.inr (Or.inl ⟨_, rfl⟩))
  · simp only [List.mem_cons, List.not_mem_nil, or_false] at h
    rcases h with rfl | rfl
    · exact Or.inl (by decide)
    · exact Or.inr (Or.inr (Or.inl ⟨_, rfl⟩))
  · obtain ⟨pr, _, rfl⟩ := List.mem_map.mp h
    exact Or.inr (Or.inr (Or.inl ⟨_, rfl⟩))

/-- C8 counterexample: the claim says absence of an optional column — the
categorical value-count columns included — silently omits the section and the
run still completes; but on a runs table without `retrieval_strategy` the
summarizer raises `KeyError` instead of completing. -/
theorem summarizer_counterexample :
    summarizeMain wTables = .error ("KeyError: retrieval_strategy") ∧
    ("retrieval_strategy") ∉ wTables.runs.cols :=
  ⟨by decide, by decide⟩

/-- C8 (amended): when the two categorical value-count columns
(`retrieval_strategy`, `domain`) are present, the summarizer completes and
writes the report for every input dataset, and the absence of any of the
other optional columns (is_correct, hallucination_flag, rank/is_relevant,
total_cost_usd, total_latency_ms) silently omits the corresponding report
section rather than failing. -/
theorem summarizer_optional_column_tolerance (t : Tables)
    (hstrat : ("retrieval_strategy") ∈ t.runs.cols) (hdom : ("domain") ∈ t.runs.cols) :
    ∃ r, summarizeMain t = .ok r ∧
      (("is_correct") ∉ t.runs.cols →
        ∀ s ∈ r, strStarts s ("- **Accuracy (mean is_correct):** ") = false) ∧
      (("hallucination_flag") ∉ t.runs.cols →
        ∀ s ∈ r, strStarts s ("- **Hallucination rate (mean hallucination_flag):** ") = false) ∧
      (hasRankRel t = false →
        ∀ s ∈ r, strStarts s ("- **rel@5") = false ∧ strStarts s ("- **rel@10") = false) ∧
      (("total_cost_usd") ∉ t.runs.cols → ("\n## Cost percentiles (USD)\n") ∉ r) ∧
      (("total_latency_ms") ∉ t.runs.cols → ("\n## Latency percentiles (ms)\n") ∉ r) := by
  have hmain : summarizeMain t = .ok (mdReport t
      (t.runs.rows.map (fun r => rowCell r ("retrieval_strategy")))
      (t.runs.rows.map (fun r => rowCell r ("domain")))) := by
    unfold summarizeMain
    simp only [bind, DF.getCol]
    rw [if_pos hstrat, exbind_ok, if_pos hdom, exbind_ok]
  refine ⟨_, hmain, ?_, ?_, ?_, ?_, ?_⟩
  · intro hni s hs
    have hacc : accOf t = none := by unfold accOf; rw [if_neg hni]
    rcases mdReport_shapes t _ _ s hs with
      h | ⟨d, rfl⟩ | ⟨d, rfl⟩ | h | ⟨-, d, rfl⟩ | ⟨-, d, rfl⟩ | ⟨-, d, rfl⟩ | ⟨-, rfl⟩ | ⟨-, rfl⟩
    · exact (by decide :
        ∀ x ∈ mdConstLines, strStarts x ("- **Accuracy (mean is_correct):** ") = false) s h
    · exact strStarts_append_false (by decide)
    · exact strStarts_append_false (by decide)
    · exact absurd hacc h.1
    · exact strStarts_append_false (by decide)
    · exact strStarts_append_false (by decide)
    · exact strStarts_append_false (by decide)
    · decide
    · decide
  · intro hni s hs
    have hhall : hallOf t = none := by unfold hallOf; rw [if_neg hni]
    rcases mdReport_shapes t _ _ s hs with
      h | ⟨d, rfl⟩ | ⟨d, rfl⟩ | ⟨-, d, rfl⟩ | h | ⟨-, d, rfl⟩ | ⟨-, d, rfl⟩ | ⟨-, rfl⟩ | ⟨-, rfl⟩
    · exact (by decide : ∀ x ∈ mdConstLines,
        strStarts x ("- **Hallucination rate (mean hallucination_flag):** ") = false) s h
    · exact strStarts_append_false (by decide)
    · exact strStarts_append_false (by decide)
    · exact strStarts_append_false (by decide)
    · exact absurd hhall h.1
    · exact strStarts_append_false (by decide)
    · exact strStarts_append_false (by decide)
    · decide
    · decide
  · intro hnr s hs
    have hr5 : rel5Of t = none := by simp [rel5Of, hnr]
    have hr10 : rel10Of t = none := by simp [rel10Of, hnr]
    rcases mdReport_shapes t _ _ s hs with
      h | ⟨d, rfl⟩ | ⟨d, rfl⟩ | ⟨-, d, rfl⟩ | ⟨-, d, rfl⟩ | h | h | ⟨-, rfl⟩ | ⟨-, rfl⟩
    · exact ⟨(by decide : ∀ x ∈ mdConstLines, strStarts x ("- **rel@5") = false) s h,
        (by decide : ∀ x ∈ mdConstLines, strStarts x ("- **rel@10") = false) s h⟩
    · exact ⟨strStarts_append_false (by decide), strStarts_append_false (by decide)⟩
    · exact ⟨strStarts_append_false (by decide), strStarts_append_false (by decide)⟩
    · exact ⟨strStarts_append_false (by decide), strStarts_append_false (by decide)⟩
    · exact ⟨strStarts_append_false (by decide), strStarts_append_false (by decide)⟩
    · exact absurd hr5 h.1
    · exact absurd hr10 h.1
    · exact ⟨by decide, by decide⟩
    · exact ⟨by decide, by decide⟩
  · intro hni hmem
    have hcost : costOf t = none := by unfold costOf; rw [if_neg hni]
    rcases mdReport_shapes t _ _ _ hmem with
      h | ⟨d, heq⟩ | ⟨d, heq⟩ | ⟨-, d, heq⟩ | ⟨-, d, heq⟩ | ⟨-, d, heq⟩ | ⟨-, d, heq⟩ |
      ⟨hne, -⟩ | ⟨-, heq⟩
    · exact absurd h (by decide)
    · exact absurd (by rw [heq]; exact strStarts_append_self _ _ :
        strStarts ("\n## Cost percentiles (USD)\n") ("- **Total rows:** **") = true) (by decide)
    · exact absurd (by rw [heq]; exact strStarts_append_self _ _ :
        strStarts ("\n## Cost percentiles (USD)\n") ("| ") = true) (by decide)
    · exact absurd (by rw [heq]; exact strStarts_append_self _ _ :
        strStarts ("\n## Cost percentiles (USD)\n")
          ("- **Accuracy (mean is_correct):** ") = true) (by decide)
    · exact absurd (by rw [heq]; exact strStarts_append_self _ _ :
        strStarts ("\n## Cost percentiles (USD)\n")
          ("- **Hallucination rate (mean hallucination_flag):** ") = true) (by decide)
    · exact absurd (by rw [heq]; exact strStarts_append_self _ _ :
        strStarts ("\n## Cost percentiles (USD)\n")
          ("- **rel@5 (mean is_relevant where rank<=5):** ") = true) (by decide)
    · exact absurd (by rw [heq]; exact strStarts_append_self _ _ :
        strStarts ("\n## Cost percentiles (USD)\n")
          ("- **rel@10 (mean is_relevant where rank<=10):** ") = true) (by decide)
    · exact absurd hcost hne
    · exact absurd heq (by decide)
  · intro hni hmem
    have hlat : latOf t = none := by unfold latOf; rw [if_neg hni]
    rcases mdReport_shapes t _ _ _ hmem with
      h | ⟨d, heq⟩ | ⟨d, heq⟩ | ⟨-, d, heq⟩ | ⟨-, d, heq⟩ | ⟨-, d, heq⟩ | ⟨-, d, heq⟩ |
      ⟨-, heq⟩ | ⟨hne, -⟩
    · exact absurd h (by decide)
    · exact absurd (by rw [heq]; exact strStarts_append_self _ _ :
        strStarts ("\n## Latency percentiles (ms)\n") ("- **Total rows:** **") = true)
        (by decide)
    · exact absurd (by rw [heq]; exact strStarts_append_self _ _ :
        strStarts ("\n## Latency percentiles (ms)\n") ("| ") = true) (by decide)
    · exact absurd (by rw [heq]; exact strStarts_append_self _ _ :
        strStarts ("\n## Latency percentiles (ms)\n")
          ("- **Accuracy (mean is_correct):** ") = true) (by decide)
    · exact absurd (by rw [heq]; exact strStarts_append_self _ _ :
        strStarts ("\n## Latency percentiles (ms)\n")
          ("- **Hallucination rate (mean hallucination_flag):** ") = true) (by decide)
    · exact absurd (by rw [heq]; exact strStarts_append_self _ _ :
        strStarts ("\n## Latency percentiles (ms)\n")
          ("- **rel@5 (mean is_relevant where rank<=5):** ") = true) (by decide)
    · exact absurd (by rw [heq]; exact strStarts_append_self _ _ :
        strStarts ("\n## Latency percentiles (ms)\n")
          ("- **rel@10 (mean is_relevant where rank<=10):** ") = true) (by decide)
    · exact absurd heq (by decide)
    · exact absurd hlat hne

/-- A runs table carrying only the categorical value-count columns. -/
def wRunsStrat : DF :=
  ⟨["run_id", "retrieval_strategy", "domain"],
   [[(("run_id" : String), some ("r1")), (("retrieval_strategy" : String), some ("bm25")),
     (("domain" : String), some ("legal"))]]⟩

/-- An events table without any of the optional rank/relevance columns. -/
def wEventsPlain : DF :=
  ⟨["run_id", "chunk_id"],
   [[(("run_id" : String), some ("r1")), (("chunk_id" : String), some ("c1"))]]⟩

def wTablesSumm : Tables := ⟨wDocuments, wChunks, wRunsStrat, wScenarios, wEventsPlain⟩

/-- Witness for the amended C8 at a concrete dataset with every optional
column absent: the run completes and every optional section is omitted. -/
theorem summarizer_optional_column_tolerance_witness :
    ∃ r, summarizeMain wTablesSumm = .ok r ∧
      (("is_correct") ∉ wTablesSumm.runs.cols →
        ∀ s ∈ r, strStarts s ("- **Accuracy (mean is_correct):** ") = false) ∧
      (("hallucination_flag") ∉ wTablesSumm.runs.cols →
        ∀ s ∈ r, strStarts s ("- **Hallucination rate (mean hallucination_flag):** ") = false) ∧
      (hasRankRel wTablesSumm = false →
        ∀ s ∈ r, strStarts s ("- **rel@5") = false ∧ strStarts s ("- **rel@10") = false) ∧
      (("total_cost_usd") ∉ wTablesSumm.runs.cols →
        ("\n## Cost percentiles (USD)\n") ∉ r) ∧
      (("total_latency_ms") ∉ wTablesSumm.runs.cols →
        ("\n## Latency percentiles (ms)\n") ∉ r) :=
  summarizer_optional_column_tolerance wTablesSumm (by decide) (by decide)

/-! ## Checksum tool (`scripts/make_checksums.py`)

SHA-256 itself is a hashlib primitive outside this repository, so the
embedding is parametrized by the digest function `sha`; the mutation claim is
settled under a pointwise collision-freedom hypothesis at the mutated file and
the (decidable) fact that the produced digest lines contain no newline, which
holds for real hex digests. -/

/-- File contents as a byte list. -/
abbrev FileBytes := List Nat

/-- The repository tree: relative path to content. -/
abbrev FS := List (String × FileBytes)

/-- Content of a file, when present. -/
def lookupFile (fs : FS) (p : String) : Option FileBytes :=
  (fs.find? (fun q => q.1 == p)).map (fun q => q.2)

/-- ASCII lowering of one character (`str.lower()` on the ASCII paths the
repository uses). -/
def lowerChar (c : Char) : Char :=
  if 'A' ≤ c ∧ c ≤ 'Z' then Char.ofNat (c.toNat + 32) else c

/-- ASCII `str.lower()`. -/
def lowerStr (s : String) : String := String.mk (s.data.map lowerChar)

/-- Does the path match `dir/*.csv`?  (`*` does not cross a slash.) -/
def globCsvIn (dir : String) (p : String) : Bool :=
  listStarts p.data (dir ++ "/").data &&
  decide (4 ≤ (p.data.drop (dir ++ "/").data.length).length) &&
  ((p.data.drop (dir ++ "/").data.length).drop
    ((p.data.drop (dir ++ "/").data.length).length - 4) == (".csv").data) &&
  !((p.data.drop (dir ++ "/").data.length).take
    ((p.data.drop (dir ++ "/").data.length).length - 4)).contains '/'

/-- The fixed glob pattern set of `iter_target_files`. -/
def coveredPath (p : String) : Bool :=
  globCsvIn ("data") p || globCsvIn ("docs") p ||
  p == "data_dictionary.csv" || p == "README.md" || p == "LICENSE" ||
  p == "CITATION.cff" || p == "CHANGELOG.md"

/-- `iter_target_files`: the covered existing files, in a deterministic order
(sorted case-insensitively by relative path). -/
def targetFiles (fs : FS) : List String :=
  List.insertionSort (fun a b => strLe (lowerStr a) (lowerStr b) = true)
    (((fs.map (fun q => q.1)).filter coveredPath).dedup)

/-- `build_lines`: one digest-then-path line per covered file. -/
def buildLines (sha : FileBytes → String) (fs : FS) : List String :=
  (targetFiles fs).map (fun rel => sha ((lookupFile fs rel).getD []) ++ ("  " ++ rel))

/-- `"\n".join(lines)`. -/
def joinLines : List String → String
  | [] => ""
  | [x] => x
  | x :: y :: rest => x ++ ("\n" ++ joinLines (y :: rest))

/-- The manifest text: joined lines plus a trailing newline. -/
def manifestText (sha : FileBytes → String) (fs : FS) : String :=
  joinLines (buildLines sha fs) ++ "\n"

/-- `make_checksums.py` `main`: check mode compares the stored manifest text
byte-for-byte against a freshly computed one — exit 2 when the manifest is
missing, exit 1 on mismatch, exit 0 on match; write mode stores the computed
manifest and exits 0.  Result: (manifest state, printed lines, exit code). -/
def checksumsMain (sha : FileBytes → String) (check : Bool) (fs : FS)
    (manifest : Option String) : Option String × List String × Nat :=
  let content := manifestText sha fs
  if check then
    match manifest with
    | none =>
        (none,
         ["checksums.sha256 is missing. Generate it with: python scripts/make_checksums.py"],
         2)
    | some existing =>
        if existing ≠ content then
          (some existing,
           ["checksums.sha256 does not match current files.",
            "Re-generate with: python scripts/make_checksums.py"], 1)
        else (some existing, ["checksums.sha256 OK"], 0)
  else
    (some content,
     ["Wrote checksums.sha256 (" ++ (toString (buildLines sha fs).length ++ " entries)")],
     0)

/-- Overwrite the content of a path, preserving the file-list structure. -/
def mutateFile (fs : FS) (p : String) (c : FileBytes) : FS :=
  fs.map (fun q => if q.1 == p then (q.1, c) else q)

/-- A digest line contains no newline byte. -/
def noNL (s : String) : Bool := !(s.data.contains '\n')

theorem strAppend_right_cancel {a b s : String} (h : a ++ s = b ++ s) : a = b := by
  have hd := congrArg String.data h
  rw [String.data_append, String.data_append] at hd
  exact String.ext (List.append_cancel_right hd)

theorem append_newline_inj : ∀ {a b r s : List Char},
    a.contains '\n' = false → b.contains '\n' = false →
    a ++ '\n' :: r = b ++ '\n' :: s → a = b ∧ r = s := by
  intro a
  induction a with
  | nil =>
      intro b r s _ hb h
      cases b with
      | nil =>
          simp only [List.nil_append] at h
          exact ⟨rfl, (List.cons.injEq _ _ _ _).mp h |>.2⟩
      | cons d bs =>
          simp only [List.nil_append, List.cons_append, List.cons.injEq] at h
          exfalso
          rw [← h.1] at hb
          simp [List.contains_cons] at hb
  | cons c as ih =>
      intro b r s ha hb h
      cases b with
      | nil =>
          simp only [List.cons_append, List.nil_append, List.cons.injEq] at h
          exfalso
          rw [h.1] at ha
          simp [List.contains_cons] at ha
      | cons d bs =>
          simp only [List.cons_append, List.cons.injEq] at h
          obtain ⟨hcd, hrest⟩ := h
          have ha' : as.contains '\n' = false := by
            simp only [List.contains_cons, Bool.or_eq_false_iff] at ha
            exact ha.2
          have hb' : bs.contains '\n' = false := by
            simp only [List.contains_cons, Bool.or_eq_false_iff] at hb
            exact hb.2
          obtain ⟨h1, h2⟩ := ih ha' hb' hrest
          exact ⟨by rw [hcd, h1], h2⟩

/-- Joining with newlines is injective on equal-length lists of newline-free
lines. -/
theorem joinLines_inj : ∀ (l1 l2 : List String), l1.length = l2.length →
    l1.all noNL = true → l2.all noNL = true →
    joinLines l1 = joinLines l2 → l1 = l2 := by
  intro l1
  induction l1 with
  | nil =>
      intro l2 hlen _ _ _
      cases l2 with
      | nil => rfl
      | cons y ys => simp at hlen
  | cons x xs ih =>
      intro l2 hlen h1 h2 hj
      cases l2 with
      | nil => simp at hlen
      | cons y ys =>
          cases xs with
          | nil =>
              cases ys with
              | nil => rw [show x = y from hj]
              | cons y2 ys2 => simp at hlen
          | cons x2 xs2 =>
              cases ys with
              | nil => simp at hlen
              | cons y2 ys2 =>
                  have hd := congrArg String.data hj
                  simp only [joinLines, String.data_append] at hd
                  have hx : x.data.contains '\n' = false := by
                    simp [List.all_cons, noNL] at h1
                    simpa using h1.1
                  have hy : y.data.contains '\n' = false := by
                    simp [List.all_cons, noNL] at h2
                    simpa using h2.1
                  obtain ⟨hxy, hrest⟩ := append_newline_inj hx hy hd
                  have hxeq : x = y := String.ext hxy
                  subst hxeq
                  have htail := ih (y2 :: ys2) (by simpa using hlen)
                    (by simp [List.all_cons] at h1 ⊢; exact h1.2)
                    (by simp [List.all_cons] at h2 ⊢; exact h2.2)
                    (String.ext hrest)
                  rw [htail]

theorem mutate_map_fst (fs : FS) (p : String) (c : FileBytes) :
    (mutateFile fs p c).map (fun q => q.1) = fs.map (fun q => q.1) := by
  unfold mutateFile
  rw [List.map_map]
  apply List.map_congr_left
  intro q _
  simp only [Function.comp]
  split <;> rfl

theorem targetFiles_mutate (fs : FS) (p : String) (c : FileBytes) :
    targetFiles (mutateFile fs p c) = targetFiles fs := by
  unfold targetFiles
  rw [mutate_map_fst]

theorem lookup_mutate_self (c : FileBytes) :
    ∀ (fs : FS) (p : String) (v : FileBytes), lookupFile fs p = some v →
      lookupFile (mutateFile fs p c) p = some c := by
  intro fs
  induction fs with
  | nil =>
      intro p v h
      simp [lookupFile] at h
  | cons q rest ih =>
      intro p v h
      by_cases hq : (q.1 == p) = true
      · unfold lookupFile mutateFile
        simp only [List.map_cons, if_pos hq, List.find?_cons]
        simp [hq]
      · have hqf : (q.1 == p) = false := by
          cases hb : (q.1 == p)
          · rfl
          · exact absurd hb hq
        have h' : lookupFile rest p = some v := by
          unfold lookupFile at h
          rw [List.find?_cons, hqf] at h
          exact h
        have hres := ih p v h'
        unfold lookupFile mutateFile
        simp only [List.map_cons]
        rw [if_neg hq, List.find?_cons]
        simp only [hqf]
        exact hres

theorem mem_map_fst_of_lookup {fs : FS} {p : String} {v : FileBytes}
    (h : lookupFile fs p = some v) : p ∈ fs.map (fun q => q.1) := by
  unfold lookupFile at h
  cases hf : fs.find? (fun q => q.1 == p) with
  | none => rw [hf] at h; simp at h
  | some q =>
      have hqmem := List.mem_of_find?_eq_some hf
      have hpred : q.1 = p := by simpa using List.find?_some hf
      rw [← hpred]
      exact List.mem_map.mpr ⟨q, hqmem, rfl⟩

/-! ## Claim C4 -/

/-- C4 counterexample: with the manifest file absent, check mode exits with
code 2, not 1 as the claim states. -/
theorem checksum_missing_manifest_counterexample :
    (checksumsMain (fun _ => "") true [] none).2.2 = 2 ∧
    ¬ (checksumsMain (fun _ => "") true [] none).2.2 = 1 :=
  ⟨rfl, by decide⟩

/-- C4 (amended): in check mode a missing manifest prints the descriptive
message and exits with code 2, while a stored manifest that differs
byte-for-byte from the freshly computed one prints the mismatch message and
exits with code 1. -/
theorem checksum_check_mode (sha : FileBytes → String) (fs : FS) (m : Option String) :
    (m = none → checksumsMain sha true fs m =
      (none,
       ["checksums.sha256 is missing. Generate it with: python scripts/make_checksums.py"],
       2)) ∧
    (∀ existing, m = some existing → existing ≠ manifestText sha fs →
      checksumsMain sha true fs m =
        (some existing,
         ["checksums.sha256 does not match current files.",
          "Re-generate with: python scripts/make_checksums.py"], 1)) := by
  constructor
  · rintro rfl
    rfl
  · rintro existing rfl hne
    unfold checksumsMain
    dsimp only
    rw [if_pos hne]
    rfl

/-- Witness for C4 at a concrete mismatching manifest. -/
theorem checksum_check_mode_witness :
    checksumsMain (fun _ => "") true [] (some ("x")) =
      (some ("x"),
       ["checksums.sha256 does not match current files.",
        "Re-generate with: python scripts/make_checksums.py"], 1) :=
  (checksum_check_mode (fun _ => "") [] (some ("x"))).2 ("x") rfl (by decide)

/-! ## Claim C6 -/

/-- C6: checksum round-trip — writing a manifest and immediately checking it
exits 0 (both invocations), while mutating the bytes of any covered file in
between makes the check exit 1, given that the digests of the old and new
contents differ (pointwise collision-freedom of SHA-256) and that digest
lines are newline-free (true of hex digests). -/
theorem checksum_roundtrip_and_mutation (sha : FileBytes → String) (fs : FS)
    (m0 : Option String) :
    ((checksumsMain sha false fs m0).2.2 = 0) ∧
    ((checksumsMain sha true fs (checksumsMain sha false fs m0).1).2.2 = 0) ∧
    (∀ path c' cOld,
      coveredPath path = true →
      lookupFile fs path = some cOld →
      sha c' ≠ sha cOld →
      (buildLines sha fs).all noNL = true →
      (buildLines sha (mutateFile fs path c')).all noNL = true →
      (checksumsMain sha true (mutateFile fs path c')
        (checksumsMain sha false fs m0).1).2.2 = 1) := by
  refine ⟨rfl, ?_, ?_⟩
  · show (checksumsMain sha true fs (some (manifestText sha fs))).2.2 = 0
    unfold checksumsMain
    dsimp only
    rw [if_neg (show ¬ (manifestText sha fs ≠ manifestText sha fs) from fun h => h rfl)]
    rfl
  · intro path c' cOld hcov hlook hsha hnl1 hnl2
    have hTF := targetFiles_mutate fs path c'
    have hmemTF : path ∈ targetFiles fs := by
      unfold targetFiles
      refine (List.perm_insertionSort _ _).mem_iff.mpr ?_
      rw [List.mem_dedup, List.mem_filter]
      exact ⟨mem_map_fst_of_lookup hlook, hcov⟩
    have hlines : buildLines sha (mutateFile fs path c') ≠ buildLines sha fs := by
      intro heq
      unfold buildLines at heq
      rw [hTF] at heq
      have hpt := (List.map_eq_map_iff.mp heq) path hmemTF
      rw [lookup_mutate_self c' fs path cOld hlook, hlook] at hpt
      simp only [Option.getD_some] at hpt
      exact hsha (strAppend_right_cancel hpt)
    have hneq : manifestText sha fs ≠ manifestText sha (mutateFile fs path c') := by
      intro heq
      unfold manifestText at heq
      have hjoin := strAppend_right_cancel heq
      have hlen : (buildLines sha fs).length = (buildLines sha (mutateFile fs path c')).length := by
        unfold buildLines
        rw [hTF]
        simp only [List.length_map]
      exact hlines ((joinLines_inj _ _ hlen hnl1 hnl2 hjoin).symm)
    show (checksumsMain sha true (mutateFile fs path c') (some (manifestText sha fs))).2.2 = 1
    unfold checksumsMain
    dsimp only
    rw [if_pos hneq]
    rfl

/-- A concrete injective-on-the-inputs digest stand-in. -/
def wSha : FileBytes → String := fun l => "h" ++ toString l.length

/-- A concrete one-file repository tree. -/
def wFsChk : FS := [("data/a.csv", [0])]

/-- Witness for C6: write then check exits 0, mutating the covered file's
bytes makes the check exit 1. -/
theorem checksum_roundtrip_and_mutation_witness :
    ((checksumsMain wSha false wFsChk none).2.2 = 0) ∧
    ((checksumsMain wSha true wFsChk (checksumsMain wSha false wFsChk none).1).2.2 = 0) ∧
    ((checksumsMain wSha true (mutateFile wFsChk ("data/a.csv") [0, 1])
        (checksumsMain wSha false wFsChk none).1).2.2 = 1) := by
  have h := checksum_roundtrip_and_mutation wSha wFsChk none
  exact ⟨h.1, h.2.1, h.2.2 ("data/a.csv") [0, 1] [0] (by decide) (by decide) (by decide)
    (by decide) (by decide)⟩

end RagQaLogs
